import Mathlib

/-!
Verification development for the aura compiler core (type checker, code
generator, binary container writer). Rust sources are shallowly embedded:
machine integers become `Nat`/`Int` with explicit modular masks, fallible
functions return `Except`, and the mutable `CodeGenerator`/`TypeContext`
structs become explicit state threading.
-/

namespace Aura

/-- `k` little-endian bytes of `n`, mirroring Rust's `to_le_bytes` on a
`k`-byte unsigned integer (higher bytes of an oversized `n` are dropped,
matching the `as uN` truncation that precedes every such call). -/
def toLE : Nat → Nat → List Nat
  | 0, _ => []
  | k + 1, n => n % 256 :: toLE k (n / 256)

/-- Read back a little-endian byte list, mirroring `uN::from_le_bytes`. -/
def fromLE : List Nat → Nat
  | [] => 0
  | b :: rest => b + 256 * fromLE rest

/-- Rust's `v as u64` on an `i64` value: two's-complement reinterpretation. -/
def i64ToU64 (v : Int) : Nat := (v % (2 ^ 64 : Int)).toNat

/-- UTF-8 bytes of a string, as `String::as_bytes` / `String::len` see them. -/
def strBytes (s : String) : List Nat := s.toUTF8.toList.map (fun b => b.toNat)

/-! ## AST (src/ast/mod.rs) -/

/-- `Type` from `src/ast/mod.rs`. -/
inductive Ty where
  | void | bool
  | i8 | i16 | i32 | i64
  | u8 | u16 | u32 | u64
  | f32 | f64
  | usize | isize
  | bitInt (bits : Nat) (signed : Bool)
  | ptr (t : Ty)
  | mutPtr (t : Ty)
  | constPtr (t : Ty)
  | array (n : Nat) (t : Ty)
  | func (params : List Ty) (ret : Ty)
  | named (s : String)
  | err
deriving Repr

mutual

/-- Structural equality on `Ty`, mirroring the derived `PartialEq` on the Rust
`Type` enum (used by the checker's exact-equality comparisons). -/
def Ty.beq : Ty → Ty → Bool
  | .void, .void => true
  | .bool, .bool => true
  | .i8, .i8 => true
  | .i16, .i16 => true
  | .i32, .i32 => true
  | .i64, .i64 => true
  | .u8, .u8 => true
  | .u16, .u16 => true
  | .u32, .u32 => true
  | .u64, .u64 => true
  | .f32, .f32 => true
  | .f64, .f64 => true
  | .usize, .usize => true
  | .isize, .isize => true
  | .bitInt b s, .bitInt b2 s2 => b == b2 && s == s2
  | .ptr t, .ptr t2 => Ty.beq t t2
  | .mutPtr t, .mutPtr t2 => Ty.beq t t2
  | .constPtr t, .constPtr t2 => Ty.beq t t2
  | .array n t, .array n2 t2 => n == n2 && Ty.beq t t2
  | .func ps r, .func ps2 r2 => Ty.beqList ps ps2 && Ty.beq r r2
  | .named s, .named s2 => s == s2
  | .err, .err => true
  | _, _ => false

/-- Pointwise `Ty.beq` on lists (the parameter lists of function types). -/
def Ty.beqList : List Ty → List Ty → Bool
  | [], [] => true
  | x :: xs, y :: ys => Ty.beq x y && Ty.beqList xs ys
  | _, _ => false

end

/-- `IntSuffix` from `src/ast/mod.rs`. -/
inductive IntSuffix where
  | i8 | i16 | i32 | i64
  | u8 | u16 | u32 | u64
  | usize | isize
  | none
deriving DecidableEq, Repr

/-- `FloatSuffix` from `src/ast/mod.rs`. -/
inductive FloatSuffix where
  | f32 | f64 | none
deriving DecidableEq, Repr

/-- `Literal` from `src/ast/mod.rs` (`Int(i64, IntSuffix)`, `String(Vec<u8>)`,
`Char(u8)`; the `f64` payload of `Float` is carried as Lean's `Float` and is
never inspected by the checker or generator). -/
inductive Literal where
  | int (val : Int) (suffix : IntSuffix)
  | float (val : Float) (suffix : FloatSuffix)
  | bool (b : Bool)
  | string (bytes : List Nat)
  | char (c : Nat)

/-- `UnaryOp` from `src/ast/mod.rs`. -/
inductive UnaryOp where
  | neg | not | bitNot | deref | addrOf
deriving DecidableEq, Repr

/-- `BinaryOp` from `src/ast/mod.rs`. -/
inductive BinaryOp where
  | add | sub | mul | div | mod
  | lshift | rshift
  | bitAnd | bitOr | bitXor
  | eq | neq | lt | gt | ltEq | gtEq
  | logicalAnd | logicalOr
deriving DecidableEq, Repr

mutual

/-- `Expr` from `src/ast/mod.rs`. `Block` carries its statement list and
optional trailing expression; `Free` carries pointer and size expressions. -/
inductive Expr where
  | literal (l : Literal)
  | identifier (name : String)
  | unary (op : UnaryOp) (e : Expr)
  | binary (op : BinaryOp) (lhs rhs : Expr)
  | call (f : Expr) (args : List Expr)
  | syscall (method : String) (args : List Expr)
  | index (arr idx : Expr)
  | field (e : Expr) (name : String)
  | ptrField (e : Expr) (name : String)
  | cast (e : Expr) (ty : Ty)
  | sizeofE (ty : Ty)
  | alignofE (ty : Ty)
  | offsetofE (ty : Ty) (fname : String)
  | assign (lhs rhs : Expr)
  | addrOf (e : Expr)
  | deref (e : Expr)
  | block (stmts : List Stmt) (result : Option Expr)
  | ifE (cond thenE elseE : Expr)
  | alloc (ty : Ty) (count : Expr)
  | free (p : Expr) (size : Expr)

/-- `Stmt` from `src/ast/mod.rs`, with `LetStmt`/`ConstStmt`/`IfStmt`/
`WhileStmt`/`ForStmt`/`AsmStmt` fields inlined (asm operand expressions are
paired with their constraint strings). -/
inductive Stmt where
  | letS (name : String) (ty : Option Ty) (value : Expr) (isConst : Bool)
  | constS (name : String) (ty : Option Ty) (value : Expr)
  | exprS (e : Expr)
  | retS (e : Option Expr)
  | breakS
  | continueS
  | block (ss : List Stmt)
  | ifS (cond : Expr) (thenB : List Stmt) (elseB : Option (List Stmt))
  | whileS (cond : Expr) (body : List Stmt)
  | forS (ini : Stmt) (cond : Expr) (update : Stmt) (body : List Stmt)
  | asmS (template : String) (inputs outputs : List (String × Expr))
      (clobbers : List String)
  | deferS (s : Stmt)

end

/-- `FunctionAttribute` from `src/ast/mod.rs`. -/
inductive FunctionAttribute where
  | noreturn | cCall | stdCall | inline
  | entry (name : Option String)
deriving DecidableEq, Repr

/-- `Param` from `src/ast/mod.rs`. -/
structure Param where
  name : String
  ty : Ty

/-- `Function` from `src/ast/mod.rs`. -/
structure FunctionD where
  name : String
  params : List Param
  returnType : Ty
  body : List Stmt
  attrs : List FunctionAttribute

/-- `Struct` from `src/ast/mod.rs` (each `StructField` as name × type). -/
structure StructD where
  name : String
  fields : List (String × Ty)

/-- `Union` from `src/ast/mod.rs` (each `UnionVariant` as name × type). -/
structure UnionD where
  name : String
  variants : List (String × Ty)

/-- `Enum` from `src/ast/mod.rs` (each `EnumVariant` as name × value). -/
structure EnumD where
  name : String
  variants : List (String × Option Int)

/-- `ConstDecl` from `src/ast/mod.rs`. -/
structure ConstDecl where
  name : String
  ty : Option Ty
  value : Expr

/-- `VarDecl` from `src/ast/mod.rs`. -/
structure VarDecl where
  name : String
  ty : Option Ty
  value : Expr

/-- `Item` from `src/ast/mod.rs`. -/
inductive Item where
  | function (f : FunctionD)
  | structI (s : StructD)
  | unionI (u : UnionD)
  | enumI (e : EnumD)
  | constI (c : ConstDecl)
  | varI (v : VarDecl)

/-- `Program` from `src/ast/mod.rs`. -/
structure Program where
  items : List Item

/-! ## Type checker (src/typecheck/mod.rs)

`TypeError` carries a format string plus payloads in the source; each distinct
error construction site becomes one constructor below. The mutable
`TypeContext` (`&mut self`) becomes explicit state threading: every checking
function takes and returns the context, in the source's evaluation order. -/

/-- One `TypeError` constructor per error site of `src/typecheck/mod.rs`. -/
inductive TErr where
  | undefinedVariable (name : String)
  | mismatchConstDecl (expected got : Ty)
  | mismatchVarDecl (expected got : Ty)
  | mismatchLet (expected got : Ty)
  | mismatchConstStmt (expected got : Ty)
  | ifCondNotBool (got : Ty)
  | whileCondNotBool (got : Ty)
  | forCondNotBool (got : Ty)
  | cannotNegate (t : Ty)
  | cannotLogicalNot (t : Ty)
  | cannotBitwiseNot (t : Ty)
  | derefNonPointer (t : Ty)
  | arithOperands (l r : Ty)
  | shiftOperands (l r : Ty)
  | bitwiseOperands (l r : Ty)
  | comparisonOperands (l r : Ty)
  | logicalOperands (l r : Ty)
  | wrongArgCount (expected got : Nat)
  | argTypeMismatch (i : Nat) (expected got : Ty)
  | callNonFunction (t : Ty)
  | arrayIndexNotInteger (t : Ty)
  | pointerIndexNotInteger (t : Ty)
  | indexNonArray (t : Ty)
  | structNoField (sname fname : String)
  | unknownStructType (sname fname : String)
  | fieldOnNonStruct (t : Ty)
  | ptrStructNoField (sname fname : String)
  | ptrUnknownStructType (sname fname : String)
  | ptrFieldNonStruct (fname : String)
  | ptrFieldNonPointer (fname : String)
  | assignTypeMismatch (l r : Ty)
  | assignToImmutable (name : String)
  | assignUndefined (name : String)
  | invalidAssignTarget
  | ifExprCondNotBool (t : Ty)
  | ifExprBranchMismatch (thenT elseT : Ty)

/-- One lexical scope: name → (type, is_const). `HashMap::insert` becomes a
cons whose entry shadows older ones under first-match lookup. -/
abbrev Scope := List (String × (Ty × Bool))

/-- `TypeContext` from `src/typecheck/mod.rs`. `scopes` keeps the innermost
(most recently pushed) scope at the head, so walking the list in order is the
source's `scopes.iter().rev()`. -/
structure TCtx where
  scopes : List Scope
  structTypes : List (String × StructD)
  unionTypes : List (String × UnionD)
  enumTypes : List (String × EnumD)
  currentFunction : Option String

/-- `TypeContext::new` (pushes one initial scope). -/
def TCtx.new : TCtx := ⟨[[]], [], [], [], Option.none⟩

/-- `push_scope`. -/
def TCtx.pushScope (c : TCtx) : TCtx := { c with scopes := [] :: c.scopes }

/-- `pop_scope`. -/
def TCtx.popScope (c : TCtx) : TCtx := { c with scopes := c.scopes.tail }

/-- `add_variable`: insert into the innermost scope (no-op when the scope
stack is empty, matching `scopes.last_mut()` returning `None`). -/
def TCtx.addVariable (c : TCtx) (name : String) (ty : Ty) (isConst : Bool) :
    TCtx :=
  match c.scopes with
  | [] => c
  | s :: rest => { c with scopes := ((name, (ty, isConst)) :: s) :: rest }

/-- `lookup_variable`: walk scopes innermost-first. -/
def scopesLookup : List Scope → String → Option (Ty × Bool)
  | [], _ => Option.none
  | s :: rest, name =>
    match s.lookup name with
    | Option.some b => Option.some b
    | Option.none => scopesLookup rest name

/-- `lookup_variable` on a context. -/
def TCtx.lookupVariable (c : TCtx) (name : String) : Option (Ty × Bool) :=
  scopesLookup c.scopes name

/-- `add_struct`. -/
def TCtx.addStruct (c : TCtx) (s : StructD) : TCtx :=
  { c with structTypes := (s.name, s) :: c.structTypes }

/-- `add_union`. -/
def TCtx.addUnion (c : TCtx) (u : UnionD) : TCtx :=
  { c with unionTypes := (u.name, u) :: c.unionTypes }

/-- `add_enum`. -/
def TCtx.addEnum (c : TCtx) (e : EnumD) : TCtx :=
  { c with enumTypes := (e.name, e) :: c.enumTypes }

/-- `lookup_struct`. -/
def TCtx.lookupStruct (c : TCtx) (name : String) : Option StructD :=
  c.structTypes.lookup name

/-- `typecheck_literal`: the suffix alone determines the type; the value is
never examined. -/
def typecheckLiteral : Literal → Except TErr Ty
  | .int _ s =>
    match s with
    | .i8 => .ok .i8
    | .i16 => .ok .i16
    | .i32 => .ok .i32
    | .i64 => .ok .i64
    | .u8 => .ok .u8
    | .u16 => .ok .u16
    | .u32 => .ok .u32
    | .u64 => .ok .u64
    | .usize => .ok .usize
    | .isize => .ok .isize
    | .none => .ok .i32
  | .float _ s =>
    match s with
    | .f32 => .ok .f32
    | .f64 => .ok .f64
    | .none => .ok .f64
  | .bool _ => .ok .bool
  | .string _ => .ok (.mutPtr .u8)
  | .char _ => .ok .u8

/-- `Type::is_integer`. -/
def Ty.isInteger : Ty → Bool
  | .i8 | .i16 | .i32 | .i64 | .u8 | .u16 | .u32 | .u64 | .usize | .isize =>
    true
  | .bitInt _ _ => true
  | _ => false

/-- `Type::is_float`. -/
def Ty.isFloat : Ty → Bool
  | .f32 | .f64 => true
  | _ => false

/-- `Type::is_pointer`. -/
def Ty.isPointer : Ty → Bool
  | .ptr _ | .mutPtr _ | .constPtr _ => true
  | _ => false

mutual

/-- `typecheck_expr`. Returns the expression's type together with the updated
context (statements inside block expressions can add bindings). The `?` error
propagation of the source becomes `Except` bind. The bodies of the per-node
helpers `typecheck_unary`, `typecheck_binary`, `typecheck_call`,
`typecheck_index`, `typecheck_field`, `typecheck_ptr_field`,
`typecheck_assign` and `typecheck_if_expr` are inlined into the corresponding
match arms (wrapper definitions with the source names follow the block). -/
def typecheckExpr (ctx : TCtx) : Expr → Except TErr (Ty × TCtx)
  | .literal l =>
    match typecheckLiteral l with
    | .ok t => .ok (t, ctx)
    | .error e => .error e
  | .identifier name =>
    match ctx.lookupVariable name with
    | Option.some (ty, _) => .ok (ty, ctx)
    | Option.none => .error (.undefinedVariable name)
  | .unary op e => do
    -- typecheck_unary
    let (ty, c1) ← typecheckExpr ctx e
    match op with
    | .neg =>
      if ty.isInteger || ty.isFloat then .ok (ty, c1)
      else .error (.cannotNegate ty)
    | .not =>
      if Ty.beq ty .bool then .ok (.bool, c1)
      else .error (.cannotLogicalNot ty)
    | .bitNot =>
      if ty.isInteger then .ok (ty, c1)
      else .error (.cannotBitwiseNot ty)
    | .deref =>
      match ty with
      | .mutPtr inner => .ok (inner, c1)
      | .constPtr inner => .ok (inner, c1)
      | other => .error (.derefNonPointer other)
    | .addrOf => .ok (.mutPtr ty, c1)
  | .binary op l r => do
    -- typecheck_binary
    let (left, c1) ← typecheckExpr ctx l
    let (right, c2) ← typecheckExpr c1 r
    match op with
    | .add | .sub | .mul | .div | .mod =>
      if left.isInteger && right.isInteger then .ok (left, c2)
      else if left.isFloat && right.isFloat then .ok (left, c2)
      else .error (.arithOperands left right)
    | .lshift | .rshift =>
      if left.isInteger && right.isInteger then .ok (left, c2)
      else .error (.shiftOperands left right)
    | .bitAnd | .bitOr | .bitXor =>
      if left.isInteger && right.isInteger then .ok (left, c2)
      else .error (.bitwiseOperands left right)
    | .eq | .neq | .lt | .gt | .ltEq | .gtEq =>
      if left.isInteger && right.isInteger then .ok (.bool, c2)
      else if left.isFloat && right.isFloat then .ok (.bool, c2)
      else .error (.comparisonOperands left right)
    | .logicalAnd | .logicalOr =>
      if Ty.beq left .bool && Ty.beq right .bool then .ok (.bool, c2)
      else .error (.logicalOperands left right)
  | .call f args => do
    -- typecheck_call
    let (funcType, c1) ← typecheckExpr ctx f
    match funcType with
    | .func params ret =>
      if params.length ≠ args.length then
        .error (.wrongArgCount params.length args.length)
      else typecheckCallArgs c1 args params 0 ret
    | other => .error (.callNonFunction other)
  | .syscall _ args => do
    let c1 ← typecheckExprList ctx args
    .ok (.isize, c1)
  | .index arr idx => do
    -- typecheck_index
    let (arrType, c1) ← typecheckExpr ctx arr
    let (idxType, c2) ← typecheckExpr c1 idx
    match arrType with
    | .array _ elemType =>
      if idxType.isInteger then .ok (elemType, c2)
      else .error (.arrayIndexNotInteger idxType)
    | .mutPtr inner =>
      if idxType.isInteger then .ok (inner, c2)
      else .error (.pointerIndexNotInteger idxType)
    | .constPtr inner =>
      if idxType.isInteger then .ok (inner, c2)
      else .error (.pointerIndexNotInteger idxType)
    | other => .error (.indexNonArray other)
  | .field e fname => do
    -- typecheck_field
    let (baseType, c1) ← typecheckExpr ctx e
    match baseType with
    | .named sname =>
      match c1.lookupStruct sname with
      | Option.some s =>
        match s.fields.lookup fname with
        | Option.some fty => .ok (fty, c1)
        | Option.none => .error (.structNoField sname fname)
      | Option.none => .error (.unknownStructType sname fname)
    | other => .error (.fieldOnNonStruct other)
  | .ptrField e fname => do
    -- typecheck_ptr_field
    let (ptrType, c1) ← typecheckExpr ctx e
    match ptrType with
    | .mutPtr inner =>
      match inner with
      | .named sname =>
        match c1.lookupStruct sname with
        | Option.some s =>
          match s.fields.lookup fname with
          | Option.some fty => .ok (fty, c1)
          | Option.none => .error (.ptrStructNoField sname fname)
        | Option.none => .error (.ptrUnknownStructType sname fname)
      | _ => .error (.ptrFieldNonStruct fname)
    | .constPtr inner =>
      match inner with
      | .named sname =>
        match c1.lookupStruct sname with
        | Option.some s =>
          match s.fields.lookup fname with
          | Option.some fty => .ok (fty, c1)
          | Option.none => .error (.ptrStructNoField sname fname)
        | Option.none => .error (.ptrUnknownStructType sname fname)
      | _ => .error (.ptrFieldNonStruct fname)
    | _ => .error (.ptrFieldNonPointer fname)
  | .cast e ty => do
    let (_, c1) ← typecheckExpr ctx e
    .ok (ty, c1)
  | .sizeofE _ => .ok (.usize, ctx)
  | .alignofE _ => .ok (.usize, ctx)
  | .offsetofE _ _ => .ok (.usize, ctx)
  | .assign l r => do
    -- typecheck_assign: both sides are checked first (in order), then the
    -- binding's is_const flag is consulted in the resulting context
    let (leftType, c1) ← typecheckExpr ctx l
    let (rightType, c2) ← typecheckExpr c1 r
    match l with
    | .identifier name =>
      match c2.lookupVariable name with
      | Option.some (_, isConstBinding) =>
        if isConstBinding then
          if Ty.beq leftType rightType then .ok (.void, c2)
          else .error (.assignTypeMismatch leftType rightType)
        else .error (.assignToImmutable name)
      | Option.none => .error (.assignUndefined name)
    | .field _ _ =>
      if Ty.beq leftType rightType then .ok (.void, c2)
      else .error (.assignTypeMismatch leftType rightType)
    | .ptrField _ _ =>
      if Ty.beq leftType rightType then .ok (.void, c2)
      else .error (.assignTypeMismatch leftType rightType)
    | .index _ _ =>
      if Ty.beq leftType rightType then .ok (.void, c2)
      else .error (.assignTypeMismatch leftType rightType)
    | .deref _ =>
      if Ty.beq leftType rightType then .ok (.void, c2)
      else .error (.assignTypeMismatch leftType rightType)
    | _ => .error .invalidAssignTarget
  | .addrOf e => do
    let (t, c1) ← typecheckExpr ctx e
    .ok (.mutPtr t, c1)
  | .deref e => do
    let (t, c1) ← typecheckExpr ctx e
    match t with
    | .mutPtr inner => .ok (inner, c1)
    | .constPtr inner => .ok (inner, c1)
    | other => .error (.derefNonPointer other)
  | .block stmts result => do
    let c1 ← typecheckStmts ctx stmts
    match result with
    | Option.some r => typecheckExpr c1 r
    | Option.none => .ok (.void, c1)
  | .ifE cond thenE elseE => do
    -- typecheck_if_expr
    let (condType, c1) ← typecheckExpr ctx cond
    if Ty.beq condType .bool then do
      let (thenType, c2) ← typecheckExpr c1 thenE
      let (elseType, c3) ← typecheckExpr c2 elseE
      if Ty.beq thenType elseType then .ok (thenType, c3)
      else .error (.ifExprBranchMismatch thenType elseType)
    else .error (.ifExprCondNotBool condType)
  | .alloc ty count => do
    let (_, c1) ← typecheckExpr ctx count
    .ok (.mutPtr ty, c1)
  | .free p _ => do
    let (_, c1) ← typecheckExpr ctx p
    .ok (.void, c1)
termination_by e => sizeOf e

/-- The `Expr::Syscall` arm's loop: check every argument, discard the types. -/
def typecheckExprList (ctx : TCtx) : List Expr → Except TErr TCtx
  | [] => .ok ctx
  | e :: es => do
    let (_, c1) ← typecheckExpr ctx e
    typecheckExprList c1 es
termination_by es => sizeOf es

/-- The argument loop of `typecheck_call` (`args.iter().zip(params)`). -/
def typecheckCallArgs (ctx : TCtx) :
    List Expr → List Ty → Nat → Ty → Except TErr (Ty × TCtx)
  | a :: rest, p :: ps, i, ret => do
    let (argType, c1) ← typecheckExpr ctx a
    if Ty.beq argType p then typecheckCallArgs c1 rest ps (i + 1) ret
    else .error (.argTypeMismatch i p argType)
  | _, _, _, ret => .ok (ret, ctx)
termination_by a _p _i _ret => sizeOf a

/-- `typecheck_stmt`. -/
def typecheckStmt (ctx : TCtx) : Stmt → Except TErr TCtx
  | .letS name oty value _ => do
    let (valueType, c1) ← typecheckExpr ctx value
    match oty with
    | Option.some expected =>
      if Ty.beq expected valueType then
        .ok (c1.addVariable name valueType false)
      else .error (.mismatchLet expected valueType)
    | Option.none => .ok (c1.addVariable name valueType false)
  | .constS name oty value => do
    let (valueType, c1) ← typecheckExpr ctx value
    match oty with
    | Option.some expected =>
      if Ty.beq expected valueType then
        .ok (c1.addVariable name valueType true)
      else .error (.mismatchConstStmt expected valueType)
    | Option.none => .ok (c1.addVariable name valueType true)
  | .exprS e => do
    let (_, c1) ← typecheckExpr ctx e
    .ok c1
  | .retS (Option.some e) => do
    let (_, c1) ← typecheckExpr ctx e
    .ok c1
  | .retS Option.none => .ok ctx
  | .breakS => .ok ctx
  | .continueS => .ok ctx
  | .block ss => typecheckStmts ctx ss
  | .ifS cond thenB elseB => do
    let (condType, c1) ← typecheckExpr ctx cond
    if Ty.beq condType .bool then do
      let c2 ← typecheckStmts c1 thenB
      match elseB with
      | Option.some es => typecheckStmts c2 es
      | Option.none => .ok c2
    else .error (.ifCondNotBool condType)
  | .whileS cond body => do
    let (condType, c1) ← typecheckExpr ctx cond
    if Ty.beq condType .bool then typecheckStmts c1 body
    else .error (.whileCondNotBool condType)
  | .forS ini cond update body => do
    let c1 ← typecheckStmt ctx ini
    let (condType, c2) ← typecheckExpr c1 cond
    if Ty.beq condType .bool then do
      let c3 ← typecheckStmt c2 update
      typecheckStmts c3 body
    else .error (.forCondNotBool condType)
  | .asmS _ _ _ _ => .ok ctx
  | .deferS s => typecheckStmt ctx s
termination_by s => sizeOf s

/-- Statement-list loops (`for stmt in ...`). -/
def typecheckStmts (ctx : TCtx) : List Stmt → Except TErr TCtx
  | [] => .ok ctx
  | s :: ss => do
    let c1 ← typecheckStmt ctx s
    typecheckStmts c1 ss
termination_by ss => sizeOf ss

end

/-- `typecheck_unary` (its body is the `Expr::Unary` arm above). -/
def typecheckUnary (ctx : TCtx) (op : UnaryOp) (e : Expr) :
    Except TErr (Ty × TCtx) :=
  typecheckExpr ctx (.unary op e)

/-- `typecheck_binary` (its body is the `Expr::Binary` arm above). -/
def typecheckBinary (ctx : TCtx) (op : BinaryOp) (l r : Expr) :
    Except TErr (Ty × TCtx) :=
  typecheckExpr ctx (.binary op l r)

/-- `typecheck_call` (its body is the `Expr::Call` arm above). -/
def typecheckCall (ctx : TCtx) (f : Expr) (args : List Expr) :
    Except TErr (Ty × TCtx) :=
  typecheckExpr ctx (.call f args)

/-- `typecheck_index` (its body is the `Expr::Index` arm above). -/
def typecheckIndex (ctx : TCtx) (arr idx : Expr) : Except TErr (Ty × TCtx) :=
  typecheckExpr ctx (.index arr idx)

/-- `typecheck_field` (its body is the `Expr::Field` arm above). -/
def typecheckField (ctx : TCtx) (e : Expr) (fname : String) :
    Except TErr (Ty × TCtx) :=
  typecheckExpr ctx (.field e fname)

/-- `typecheck_ptr_field` (its body is the `Expr::PtrField` arm above). -/
def typecheckPtrField (ctx : TCtx) (e : Expr) (fname : String) :
    Except TErr (Ty × TCtx) :=
  typecheckExpr ctx (.ptrField e fname)

/-- `typecheck_assign` (its body is the `Expr::Assign` arm above). -/
def typecheckAssign (ctx : TCtx) (l r : Expr) : Except TErr (Ty × TCtx) :=
  typecheckExpr ctx (.assign l r)

/-- `typecheck_if_expr` (its body is the `Expr::If` arm above). -/
def typecheckIfExpr (ctx : TCtx) (cond thenE elseE : Expr) :
    Except TErr (Ty × TCtx) :=
  typecheckExpr ctx (.ifE cond thenE elseE)

/-- The five lhs forms `typecheck_assign` accepts as assignment targets
(identifier, field, pointer-field, index, dereference). -/
def isAssignTargetForm : Expr → Bool
  | .identifier _ => true
  | .field _ _ => true
  | .ptrField _ _ => true
  | .index _ _ => true
  | .deref _ => true
  | _ => false

/-- `typecheck_function`. -/
def typecheckFunction (ctx : TCtx) (f : FunctionD) : Except TErr TCtx :=
  let prevFn := ctx.currentFunction
  let c0 := { ctx with currentFunction := Option.some f.name }
  let c1 :=
    f.params.foldl (fun c p => c.addVariable p.name p.ty true) c0.pushScope
  match typecheckStmts c1 f.body with
  | .error er => .error er
  | .ok c2 => .ok { c2.popScope with currentFunction := prevFn }

/-- `typecheck_const_decl` (top-level `const`). -/
def typecheckConstDecl (ctx : TCtx) (c : ConstDecl) : Except TErr TCtx :=
  match typecheckExpr ctx c.value with
  | .error er => .error er
  | .ok (valueType, c1) =>
    match c.ty with
    | Option.some expected =>
      if Ty.beq expected valueType then .ok c1
      else .error (.mismatchConstDecl expected valueType)
    | Option.none => .ok c1

/-- `typecheck_var_decl` (top-level `var`). -/
def typecheckVarDecl (ctx : TCtx) (v : VarDecl) : Except TErr TCtx :=
  match typecheckExpr ctx v.value with
  | .error er => .error er
  | .ok (valueType, c1) =>
    match v.ty with
    | Option.some expected =>
      if Ty.beq expected valueType then .ok c1
      else .error (.mismatchVarDecl expected valueType)
    | Option.none => .ok c1

/-- `typecheck_item`. -/
def typecheckItem (ctx : TCtx) : Item → Except TErr TCtx
  | .function f => typecheckFunction ctx f
  | .structI s => .ok (ctx.addStruct s)
  | .unionI u => .ok (ctx.addUnion u)
  | .enumI e => .ok (ctx.addEnum e)
  | .constI c => typecheckConstDecl ctx c
  | .varI v => typecheckVarDecl ctx v

/-- `typecheck_program`. -/
def typecheckProgram (ctx : TCtx) : List Item → Except TErr TCtx
  | [] => .ok ctx
  | it :: its =>
    match typecheckItem ctx it with
    | .ok c1 => typecheckProgram c1 its
    | .error er => .error er

/-- Top-level `typecheck`. -/
def typecheck (p : Program) : Except TErr Program :=
  match typecheckProgram TCtx.new p.items with
  | .ok _ => .ok p
  | .error er => .error er

/-! ## Code generator (src/codegen/mod.rs)

The mutable `CodeGenerator` struct becomes the explicit state `CGSt`
(the source's `current_offset` and `label_positions` fields are never read or
written by any reachable code and are omitted). Emitter methods are pure state
transformers appending machine bytes to `text`. -/

/-- `SymbolKind` from `src/codegen/mod.rs`. -/
inductive SymbolKind where
  | function | data | object
deriving DecidableEq, Repr

/-- `RelocationKind` from `src/codegen/mod.rs`. -/
inductive RelocationKind where
  | absolute64 | relative32 | absolute32
deriving DecidableEq, Repr

/-- `Symbol` from `src/codegen/mod.rs`. -/
structure Symbol where
  name : String
  offset : Nat
  size : Nat
  kind : SymbolKind
deriving DecidableEq, Repr

/-- `Relocation` from `src/codegen/mod.rs`. -/
structure Relocation where
  offset : Nat
  symbol : String
  kind : RelocationKind
deriving DecidableEq, Repr

/-- `AuraObject` from `src/codegen/mod.rs`. -/
structure AuraObject where
  entryPoint : Nat
  text : List Nat
  data : List Nat
  bssSize : Nat
  relocations : List Relocation
  symbols : List Symbol
deriving DecidableEq, Repr

/-- `CodegenError`: one constructor per error site of `src/codegen/mod.rs`. -/
inductive CGErr where
  | entryPointMissing (name : String)
  | intLiteralDoesNotFit (val : Int)
  | unknownSyscallMethod (name : String)
  | writeSyscallNeedsArg
  | writeSyscallBadArg
  | letUndefinedVariable (name : String)
  | writeUnknownIdentifier (name : String)
deriving DecidableEq, Repr

/-- The generator state (`CodeGenerator`). `vars` is the local-binding map
`variables` (name → data offset); `HashMap::insert` becomes a shadowing
cons. -/
structure CGSt where
  text : List Nat
  data : List Nat
  bssSize : Nat
  relocations : List Relocation
  symbols : List Symbol
  entryPoint : Nat
  entryPointName : Option String
  vars : List (String × Nat)
deriving DecidableEq, Repr

/-- `CodeGenerator::new` (with a given entry-point name, set by `generate`
before any item is processed). -/
def CGSt.new (entryName : Option String) : CGSt :=
  ⟨[], [], 0, [], [], 0, entryName, []⟩

/-- `IntType` from `src/codegen/mod.rs` (FEATURE 9). -/
structure IntType where
  bits : Nat
  signed : Bool
deriving DecidableEq, Repr

/-- `IntType::from_aura_type`. -/
def IntType.fromAuraType : Ty → Option IntType
  | .i8 => Option.some ⟨8, true⟩
  | .i16 => Option.some ⟨16, true⟩
  | .i32 => Option.some ⟨32, true⟩
  | .i64 => Option.some ⟨64, true⟩
  | .u8 => Option.some ⟨8, false⟩
  | .u16 => Option.some ⟨16, false⟩
  | .u32 => Option.some ⟨32, false⟩
  | .u64 => Option.some ⟨64, false⟩
  | .bitInt bits signed => Option.some ⟨bits, signed⟩
  | _ => Option.none

/-- `IntType::from_suffix` (note: `Usize` and `Isize` both map to 64-bit
unsigned). -/
def IntType.fromSuffix : IntSuffix → Option IntType
  | .i8 => Option.some ⟨8, true⟩
  | .i16 => Option.some ⟨16, true⟩
  | .i32 => Option.some ⟨32, true⟩
  | .i64 => Option.some ⟨64, true⟩
  | .u8 => Option.some ⟨8, false⟩
  | .u16 => Option.some ⟨16, false⟩
  | .u32 => Option.some ⟨32, false⟩
  | .u64 => Option.some ⟨64, false⟩
  | .usize => Option.some ⟨64, false⟩
  | .isize => Option.some ⟨64, false⟩
  | .none => Option.none

/-- `IntType::storage_size`. -/
def IntType.storageSize (t : IntType) : Nat := (t.bits + 7) / 8

/-- `IntType::mask`. -/
def IntType.mask (t : IntType) : Nat :=
  if t.bits ≥ 64 then 2 ^ 64 - 1 else 2 ^ t.bits - 1

/-- `IntType::fits` (the `i64` shifts are exact for `bits < 64`, the only
reachable case below the early `bits >= 64` return). -/
def IntType.fits (t : IntType) (val : Int) : Bool :=
  if t.bits ≥ 64 then true
  else if t.signed then
    decide (-(2 ^ (t.bits - 1) : Int) ≤ val ∧ val ≤ 2 ^ (t.bits - 1) - 1)
  else
    decide (0 ≤ val) && decide (i64ToU64 val ≤ 2 ^ t.bits - 1)

/-- `mov_rax_immediate`: `48 B8 <imm64-le>`. -/
def movRaxImmediate (st : CGSt) (val : Nat) : CGSt :=
  { st with text := st.text ++ [0x48, 0xb8] ++ toLE 8 val }

/-- `mov_rax_from_mem`: load the address immediate, then `48 8B 00`. -/
def movRaxFromMem (st : CGSt) (addr : Nat) : CGSt :=
  let s1 := movRaxImmediate st addr
  { s1 with text := s1.text ++ [0x48, 0x8b, 0x00] }

/-- `xor_rax_rax`: `48 31 C0`. -/
def xorRaxRax (st : CGSt) : CGSt :=
  { st with text := st.text ++ [0x48, 0x31, 0xc0] }

/-- `ret`: `C3`. -/
def emitRet (st : CGSt) : CGSt :=
  { st with text := st.text ++ [0xc3] }

/-- `mov_rdi_immediate`: `48 BF <imm64-le>`. -/
def movRdiImmediate (st : CGSt) (val : Nat) : CGSt :=
  { st with text := st.text ++ [0x48, 0xbf] ++ toLE 8 val }

/-- `mov_rsi_immediate`: `48 BE <imm64-le>`. -/
def movRsiImmediate (st : CGSt) (val : Nat) : CGSt :=
  { st with text := st.text ++ [0x48, 0xbe] ++ toLE 8 val }

/-- `mov_rdx_immediate`: `48 BA <imm64-le>`. -/
def movRdxImmediate (st : CGSt) (val : Nat) : CGSt :=
  { st with text := st.text ++ [0x48, 0xba] ++ toLE 8 val }

/-- `mov_r10_immediate`: `49 BA <imm64-le>`. -/
def movR10Immediate (st : CGSt) (val : Nat) : CGSt :=
  { st with text := st.text ++ [0x49, 0xba] ++ toLE 8 val }

/-- `mov_rax_to_r10_mem`: `49 89 02` (`mov [r10], rax`). -/
def movRaxToR10Mem (st : CGSt) : CGSt :=
  { st with text := st.text ++ [0x49, 0x89, 0x02] }

/-- `mov_rax_from_r10`: `49 8B C2`. -/
def movRaxFromR10 (st : CGSt) : CGSt :=
  { st with text := st.text ++ [0x49, 0x8b, 0xc2] }

/-- `syscall`: `0F 05`. -/
def emitSyscall (st : CGSt) : CGSt :=
  { st with text := st.text ++ [0x0f, 0x05] }

/-- `mov_rdi_rax`: `48 89 F8`. -/
def movRdiRax (st : CGSt) : CGSt :=
  { st with text := st.text ++ [0x48, 0x89, 0xf8] }

/-- `call_external`: register calls for the two allocator intrinsics, and
`FF 15 <disp32>` plus a `Relative32` relocation for every other symbol. -/
def callExternal (st : CGSt) (symbol : String) : CGSt :=
  if symbol = "__aura_alloc" then
    { st with text := st.text ++ [0x41, 0xff, 0xd6] }
  else if symbol = "__aura_free" then
    { st with text := st.text ++ [0x41, 0xff, 0xd7] }
  else
    { st with
      text := st.text ++ [0xff, 0x15] ++ [0, 0, 0, 0],
      relocations :=
        st.relocations ++ [⟨st.text.length + 2, symbol, .relative32⟩] }

/-- The byte sequence chosen by `emit_width_immediate` (FEATURE 9): `mov al`,
`mov ax` (with operand-size prefix), `mov eax`, or REX.W `mov rax`. -/
def widthImmBytes (bits val : Nat) : List Nat :=
  if 1 ≤ bits ∧ bits ≤ 8 then [0xb0] ++ toLE 1 val
  else if 9 ≤ bits ∧ bits ≤ 16 then [0x66, 0xb8] ++ toLE 2 val
  else if 17 ≤ bits ∧ bits ≤ 32 then [0xb8] ++ toLE 4 val
  else [0x48, 0xb8] ++ toLE 8 val

/-- `emit_width_immediate`. -/
def emitWidthImmediate (st : CGSt) (val bits : Nat) : CGSt :=
  { st with text := st.text ++ widthImmBytes bits val }

/-- `mask_rax` (FEATURE 9): for `bits < 64` pushes `48 25` followed by
`mask.to_le_bytes()` — the full **eight** little-endian bytes of the `u64`
mask, where the mask is `u64::MAX` when `bits >= 63` and `2^bits - 1`
otherwise. -/
def maskRax (st : CGSt) (bits : Nat) : CGSt :=
  if bits < 64 then
    let mask : Nat := if bits ≥ 63 then 2 ^ 64 - 1 else 2 ^ bits - 1
    { st with text := st.text ++ [0x48, 0x25] ++ toLE 8 mask }
  else st

/-- `generate_cast_conversion` (FEATURE 8; every arm returns `Ok`, so the
embedding is pure). -/
def generateCastConversion (st : CGSt) (targetType : Ty) : CGSt :=
  match targetType with
  | .i8 => { st with text := st.text ++ [0x0f, 0xbe, 0xc0] }
  | .u8 => { st with text := st.text ++ [0x0f, 0xb6, 0xc0] }
  | .i16 => { st with text := st.text ++ [0x0f, 0xbf, 0xc0] }
  | .u16 => { st with text := st.text ++ [0x0f, 0xb7, 0xc0] }
  | .i32 => st
  | .u32 => st
  | .i64 => st
  | .u64 => st
  | .bitInt bits _ => maskRax st bits
  | _ => st

/-- `get_data_address`: fixed data-segment base `0x1000000` plus offset. -/
def getDataAddress (offset : Nat) : Nat := 0x1000000 + offset

/-- `generate_write_syscall`. The data argument is `args[1]` when a file
descriptor argument is present (`args.len() > 1`), else `args[0]`; extra
arguments are ignored. Never calls back into expression generation. -/
def generateWriteSyscall (st : CGSt) (args : List Expr) :
    Except CGErr CGSt :=
  match args with
  | [] => .error .writeSyscallNeedsArg
  | _ =>
    let fd : Nat :=
      match args with
      | .literal (.int val _) :: _ :: _ => i64ToU64 val
      | _ :: _ :: _ => 1
      | _ => 1
    let dataArg : Option Expr :=
      match args with
      | _ :: a1 :: _ => Option.some a1
      | a0 :: _ => Option.some a0
      | _ => Option.none
    match dataArg with
    | Option.some (.literal (.string bytes)) =>
      let offset := st.data.length
      let s1 := { st with data := st.data ++ bytes }
      let len := bytes.length
      let dataAddr := getDataAddress offset
      .ok (emitSyscall (movRaxImmediate (movRdxImmediate
        (movRsiImmediate (movRdiImmediate s1 fd) dataAddr) len) 1))
    | Option.some (.identifier name) =>
      match st.symbols.find? (fun s => s.name == name && s.kind == .data) with
      | Option.some sym =>
        let len := sym.size
        let dataAddr := getDataAddress sym.offset
        .ok (emitSyscall (movRaxImmediate (movRdxImmediate
          (movRsiImmediate (movRdiImmediate st fd) dataAddr) len) 1))
      | Option.none => .error (.writeUnknownIdentifier name)
    | _ => .error .writeSyscallBadArg

/-- `generate_syscall`. -/
def generateSyscall (st : CGSt) (methodName : String) (args : List Expr) :
    Except CGErr CGSt :=
  if methodName = "write" then generateWriteSyscall st args
  else .error (.unknownSyscallMethod methodName)

/-- `generate_expr`. Returns the updated state and the `u64` result value.
Only literal, identifier, syscall, alloc, free and cast have behavior; all
other expressions fall to `Ok(0)` with no bytes emitted. -/
def generateExpr (st : CGSt) : Expr → Except CGErr (CGSt × Nat)
  | .literal (.int val intSuffix) =>
    match IntType.fromSuffix intSuffix with
    | Option.some intType =>
      if intType.fits val then
        let masked := i64ToU64 val &&& intType.mask
        .ok (emitWidthImmediate st masked intType.bits, masked)
      else .error (.intLiteralDoesNotFit val)
    | Option.none => .ok (st, i64ToU64 val)
  | .identifier name =>
    match st.symbols.find? (fun s => s.name == name && s.kind == .data) with
    | Option.some sym => .ok (movRaxFromMem st sym.offset, 0)
    | Option.none =>
      match st.vars.lookup name with
      | Option.some offset =>
        let addr := getDataAddress offset
        .ok (movRaxFromR10 (movR10Immediate st addr), 0)
      | Option.none => .ok (st, 0)
  | .syscall methodName args =>
    match generateSyscall st methodName args with
    | .ok s1 => .ok (s1, 0)
    | .error e => .error e
  | .alloc _ count =>
    match generateExpr st count with
    | .error e => .error e
    | .ok (s1, size) =>
      .ok (callExternal (movRdiImmediate s1 size) "__aura_alloc", 0)
  | .free p size =>
    match generateExpr st p with
    | .error e => .error e
    | .ok (s1, _) =>
      let s2 := movRdiRax s1
      match generateExpr s2 size with
      | .error e => .error e
      | .ok (s3, sizeVal) =>
        .ok (callExternal (movRsiImmediate s3 sizeVal) "__aura_free", 0)
  | .cast e targetType =>
    match generateExpr st e with
    | .error e2 => .error e2
    | .ok (s1, _) => .ok (generateCastConversion s1 targetType, 0)
  | _ => .ok (st, 0)

/-- `generate_return`: an integer literal moves its value into `RAX`
unconditionally via `mov rax, imm64`; a data-symbol identifier loads from its
offset; everything else zeroes `RAX`. -/
def generateReturn (st : CGSt) (expr : Expr) : Except CGErr CGSt :=
  match expr with
  | .literal (.int val _) => .ok (movRaxImmediate st (i64ToU64 val))
  | .identifier name =>
    match st.symbols.find? (fun s => s.name == name && s.kind == .data) with
    | Option.some sym => .ok (movRaxFromMem st sym.offset)
    | Option.none => .ok (xorRaxRax st)
  | _ => .ok (xorRaxRax st)

/-- `generate_const_stmt` (local `const`): identical data/symbol handling to
the top-level const item. -/
def generateConstStmt (st : CGSt) (name : String) (value : Expr) :
    Except CGErr CGSt :=
  match value with
  | .literal (.int val _) =>
    let offset := st.data.length
    .ok { st with
      data := st.data ++ toLE 8 (i64ToU64 val),
      symbols := st.symbols ++ [⟨name, offset, 8, .data⟩] }
  | .literal (.string bytes) =>
    let offset := st.data.length
    .ok { st with
      data := st.data ++ bytes ++ [0],
      symbols := st.symbols ++ [⟨name, offset, bytes.length, .data⟩] }
  | _ => .ok st

/-- `generate_let`: integer literals are stored directly in `data`;
identifier initializers load through `R10` and store into a fresh 8-byte
slot; all other initializers are generated and the `RAX` result stored. -/
def generateLet (st : CGSt) (name : String) (value : Expr) :
    Except CGErr CGSt :=
  match value with
  | .literal (.int val _) =>
    let offset := st.data.length
    .ok { st with
      data := st.data ++ toLE 8 (i64ToU64 val),
      vars := (name, offset) :: st.vars }
  | .identifier srcName =>
    match st.vars.lookup srcName with
    | Option.some srcOffset =>
      let addr := getDataAddress srcOffset
      let s1 := movRaxFromR10 (movR10Immediate st addr)
      let offset := s1.data.length
      let s2 := { s1 with data := s1.data ++ List.replicate 8 0 }
      let varAddr := getDataAddress offset
      let s3 := movRaxToR10Mem (movR10Immediate s2 varAddr)
      .ok { s3 with vars := (name, offset) :: s3.vars }
    | Option.none => .error (.letUndefinedVariable srcName)
  | other =>
    match generateExpr st other with
    | .error e => .error e
    | .ok (s1, _) =>
      let offset := s1.data.length
      let s2 := { s1 with data := s1.data ++ List.replicate 8 0 }
      let varAddr := getDataAddress offset
      let s3 := movRaxToR10Mem (movR10Immediate s2 varAddr)
      .ok { s3 with vars := (name, offset) :: s3.vars }

mutual

/-- `generate_stmt`. Statements other than return/const/let/expr/block are
silently skipped. -/
def generateStmt (st : CGSt) : Stmt → Except CGErr CGSt
  | .retS (Option.some expr) =>
    match generateReturn st expr with
    | .ok s1 => .ok (emitRet s1)
    | .error e => .error e
  | .retS Option.none => .ok (emitRet (xorRaxRax st))
  | .constS name _ value => generateConstStmt st name value
  | .letS name _ value _ => generateLet st name value
  | .exprS e =>
    match generateExpr st e with
    | .ok (s1, _) => .ok s1
    | .error e2 => .error e2
  | .block ss => generateStmts st ss
  | _ => .ok st
termination_by s => sizeOf s

/-- The statement loops of `generate_function` / `Stmt::Block`. -/
def generateStmts (st : CGSt) : List Stmt → Except CGErr CGSt
  | [] => .ok st
  | s :: ss =>
    match generateStmt st s with
    | .ok s1 => generateStmts s1 ss
    | .error e => .error e
termination_by ss => sizeOf ss

end

mutual

/-- Whether `generate_stmt` can reach no `Const` statement in this statement
(`Const` is the only statement form that pushes a symbol; `generate_stmt`
ignores if/while/for/asm/defer bodies entirely). -/
def stmtSymFree : Stmt → Bool
  | .constS _ _ _ => false
  | .block ss => stmtsSymFree ss
  | _ => true
termination_by s => sizeOf s

/-- `stmtSymFree` over a statement list. -/
def stmtsSymFree : List Stmt → Bool
  | [] => true
  | s :: ss => stmtSymFree s && stmtsSymFree ss
termination_by ss => sizeOf ss

end

/-- Whether a const initializer is one of the two literal forms that place
bytes in `data` and record a symbol (`generate_const_item`). -/
def constHasDataInit : Expr → Bool
  | .literal (.int _ _) => true
  | .literal (.string _) => true
  | _ => false

/-- The entry-point recording step of `generate_function`. -/
def setEntryIfMatch (st : CGSt) (fname : String) (funcStart : Nat) : CGSt :=
  match st.entryPointName with
  | Option.some entryName =>
    if fname = entryName then { st with entryPoint := funcStart } else st
  | Option.none => st

/-- `generate_function`: push a size-0 symbol, record the entry point when
the name matches, emit the body, then patch the size of the **first** symbol
carrying the function's name. -/
def generateFunction (st : CGSt) (f : FunctionD) : Except CGErr CGSt :=
  let funcStart := st.text.length
  let s1 := { st with
    symbols := st.symbols ++ [(⟨f.name, funcStart, 0, .function⟩ : Symbol)] }
  let s2 := setEntryIfMatch s1 f.name funcStart
  match generateStmts s2 f.body with
  | .error e => .error e
  | .ok s3 =>
    match s3.symbols.findIdx? (fun s => s.name == f.name) with
    | Option.some idx =>
      match s3.symbols[idx]? with
      | Option.some sym =>
        .ok { s3 with
          symbols :=
            s3.symbols.set idx { sym with size := s3.text.length - funcStart } }
      | Option.none => .ok s3
    | Option.none => .ok s3

/-- `generate_const_item` (top-level `const`): integer literals store 8
little-endian bytes with a size-8 `Data` symbol; string literals store the
bytes plus a NUL terminator with a symbol whose size **excludes** the
terminator; other initializers contribute nothing. -/
def generateConstItem (st : CGSt) (c : ConstDecl) : Except CGErr CGSt :=
  match c.value with
  | .literal (.int val _) =>
    let offset := st.data.length
    .ok { st with
      data := st.data ++ toLE 8 (i64ToU64 val),
      symbols := st.symbols ++ [⟨c.name, offset, 8, .data⟩] }
  | .literal (.string bytes) =>
    let offset := st.data.length
    .ok { st with
      data := st.data ++ bytes ++ [0],
      symbols := st.symbols ++ [⟨c.name, offset, bytes.length, .data⟩] }
  | _ => .ok st

/-- `generate_var_item`: reserve 8 bytes of bss; no symbol, no data. -/
def generateVarItem (st : CGSt) (_v : VarDecl) : Except CGErr CGSt :=
  .ok { st with bssSize := st.bssSize + 8 }

/-- `generate_item`. -/
def generateItem (st : CGSt) : Item → Except CGErr CGSt
  | .function f => generateFunction st f
  | .constI c => generateConstItem st c
  | .varI v => generateVarItem st v
  | _ => .ok st

/-- The item loop of `generate`. -/
def generateItems (st : CGSt) : List Item → Except CGErr CGSt
  | [] => .ok st
  | it :: its =>
    match generateItem st it with
    | .ok s1 => generateItems s1 its
    | .error e => .error e

/-- The entry-point scan of `generate`: the last `Entry` attribute wins;
`Entry(Some(n))` selects `n`, `Entry(None)` the function's own name. -/
def scanEntryName (items : List Item) : Option String :=
  items.foldl
    (fun acc it =>
      match it with
      | .function f =>
        f.attrs.foldl
          (fun acc2 attr =>
            match attr with
            | .entry (Option.some entryName) => Option.some entryName
            | .entry Option.none => Option.some f.name
            | _ => acc2)
          acc
      | _ => acc)
    Option.none

/-- Whether a function item with the given name exists (the entry-point
existence check in `generate`). -/
def functionExists (items : List Item) (name : String) : Bool :=
  items.any (fun it =>
    match it with
    | .function f => f.name == name
    | _ => false)

/-- `generate`. -/
def generate (typedAst : Program) : Except CGErr AuraObject :=
  let entryName := scanEntryName typedAst.items
  match entryName with
  | Option.some n =>
    if functionExists typedAst.items n then
      match generateItems (CGSt.new entryName) typedAst.items with
      | .ok st =>
        .ok ⟨st.entryPoint, st.text, st.data, st.bssSize, st.relocations,
          st.symbols⟩
      | .error e => .error e
    else .error (.entryPointMissing n)
  | Option.none =>
    match generateItems (CGSt.new entryName) typedAst.items with
    | .ok st =>
      .ok ⟨st.entryPoint, st.text, st.data, st.bssSize, st.relocations,
        st.symbols⟩
    | .error e => .error e

/-! ## Binary writer (src/codegen/binary.rs)

`AuraBinaryHeader` is `#[repr(C)]` with fields `[u8;4], u8, u8, u16` followed
by nine `u64`s, so `std::mem::size_of::<AuraBinaryHeader>()` is
4+1+1+2 = 8 bytes (the `u16` ends exactly at the 8-byte alignment of the
first `u64`) plus 9*8 = 72, i.e. **80** — with no padding, which also makes
the manual `as_bytes` serialization 80 bytes long. -/

/-- `size_of::<AuraBinaryHeader>()` (see the section comment: 80). -/
def headerStructSize : Nat := 80

/-- `align_to` from `src/codegen/binary.rs`. -/
def alignTo (size align : Nat) : Nat :=
  if align = 0 then size else (size + align - 1) / align * align

/-- `AuraBinaryHeader` from `src/codegen/binary.rs`; `magic` is the four raw
bytes, every other field a machine integer. -/
structure AuraHeader where
  magic : List Nat
  version : Nat
  flags : Nat
  reserved : Nat
  entryPoint : Nat
  stackSize : Nat
  textOffset : Nat
  textSize : Nat
  dataOffset : Nat
  dataSize : Nat
  bssSize : Nat
  relocCount : Nat
  symbolCount : Nat
deriving DecidableEq, Repr

/-- The header value built by `write_aura_binary` for an object: magic
`AURA`, version 1, stack 4096, text at the header size, data after the
16-byte-aligned text. -/
def mkHeader (o : AuraObject) : AuraHeader where
  magic := [0x41, 0x55, 0x52, 0x41]
  version := 1
  flags := 0
  reserved := 0
  entryPoint := o.entryPoint
  stackSize := 4096
  textOffset := headerStructSize
  textSize := o.text.length
  dataOffset := headerStructSize + alignTo o.text.length 16
  dataSize := o.data.length
  bssSize := o.bssSize
  relocCount := o.relocations.length
  symbolCount := o.symbols.length

/-- `AuraBinaryHeader::as_bytes`. -/
def AuraHeader.asBytes (h : AuraHeader) : List Nat :=
  h.magic ++ [h.version, h.flags] ++ toLE 2 h.reserved ++
    toLE 8 h.entryPoint ++ toLE 8 h.stackSize ++ toLE 8 h.textOffset ++
    toLE 8 h.textSize ++ toLE 8 h.dataOffset ++ toLE 8 h.dataSize ++
    toLE 8 h.bssSize ++ toLE 8 h.relocCount ++ toLE 8 h.symbolCount

/-- Read `k` bytes at position `pos` as a little-endian integer (the
`copy_from_slice` + `from_le_bytes` pairs of `from_bytes`). -/
def readLE (bytes : List Nat) (pos k : Nat) : Nat :=
  fromLE ((bytes.drop pos).take k)

/-- `AuraBinaryHeader::from_bytes`: fixed positions 0/4/5/6/8/16/… -/
def AuraHeader.fromBytes (bytes : List Nat) : AuraHeader where
  magic := bytes.take 4
  version := readLE bytes 4 1
  flags := readLE bytes 5 1
  reserved := readLE bytes 6 2
  entryPoint := readLE bytes 8 8
  stackSize := readLE bytes 16 8
  textOffset := readLE bytes 24 8
  textSize := readLE bytes 32 8
  dataOffset := readLE bytes 40 8
  dataSize := readLE bytes 48 8
  bssSize := readLE bytes 56 8
  relocCount := readLE bytes 64 8
  symbolCount := readLE bytes 72 8

/-- `RelocationKind as u8` (declaration-order discriminants). -/
def RelocationKind.kindByte : RelocationKind → Nat
  | .absolute64 => 0
  | .relative32 => 1
  | .absolute32 => 2

/-- `SymbolKind as u8` (declaration-order discriminants). -/
def SymbolKind.kindByte : SymbolKind → Nat
  | .function => 0
  | .data => 1
  | .object => 2

/-- `Relocation::as_bytes`: offset, name length, name bytes, NUL, kind. -/
def Relocation.asBytes (r : Relocation) : List Nat :=
  toLE 8 r.offset ++ toLE 8 (strBytes r.symbol).length ++
    strBytes r.symbol ++ [0] ++ [r.kind.kindByte]

/-- `Symbol::as_bytes`: name length, name bytes, NUL, offset, size, kind. -/
def Symbol.asBytes (s : Symbol) : List Nat :=
  toLE 8 (strBytes s.name).length ++ strBytes s.name ++ [0] ++
    toLE 8 s.offset ++ toLE 8 s.size ++ [s.kind.kindByte]

/-- `write_aura_binary` as the byte sequence written to the file: header,
text NUL-padded to 16, data NUL-padded to 16, relocation records, symbol
records. -/
def writeAuraBinary (o : AuraObject) : List Nat :=
  (mkHeader o).asBytes ++
    o.text ++ List.replicate (alignTo o.text.length 16 - o.text.length) 0 ++
    o.data ++ List.replicate (alignTo o.data.length 16 - o.data.length) 0 ++
    (o.relocations.map Relocation.asBytes).flatten ++
    (o.symbols.map Symbol.asBytes).flatten

/-! ## Spec-side encodings (for comparison against the generator) -/

/-- Modelled from the spec: the width-selected immediate-move table of §4.2 —
`mov al, imm8` for 1..8 bits, `66 B8 imm16` for 9..16, `B8 imm32` for 17..32,
`48 B8 imm64` otherwise. -/
def specImmEncoding (b imm : Nat) : List Nat :=
  if 1 ≤ b ∧ b ≤ 8 then [0xb0] ++ toLE 1 imm
  else if 9 ≤ b ∧ b ≤ 16 then [0x66, 0xb8] ++ toLE 2 imm
  else if 17 ≤ b ∧ b ≤ 32 then [0xb8] ++ toLE 4 imm
  else [0x48, 0xb8] ++ toLE 8 imm

/-- Modelled from the spec: the BitInt mask instruction of the §4.2 cast
table, `and rax, imm32` = `48 25 <imm32-le>` carrying the low 32 bits of the
mask `2^b - 1`. -/
def specMaskEncoding (b : Nat) : List Nat :=
  [0x48, 0x25] ++ toLE 4 (2 ^ b - 1)

/-! ## Supporting lemmas -/

theorem toLE_length : ∀ (k n : Nat), (toLE k n).length = k
  | 0, _ => rfl
  | k + 1, n => by simp [toLE, toLE_length k]

theorem fromLE_toLE : ∀ (k n : Nat), fromLE (toLE k n) = n % 256 ^ k
  | 0, n => by simp [toLE, fromLE, Nat.mod_one]
  | k + 1, n => by
    rw [pow_succ, Nat.mul_comm, Nat.mod_mul]
    simp [toLE, fromLE, fromLE_toLE k]

theorem fromLE_toLE_of_lt {k n : Nat} (h : n < 256 ^ k) :
    fromLE (toLE k n) = n := by
  rw [fromLE_toLE, Nat.mod_eq_of_lt h]

set_option maxHeartbeats 3200000 in
mutual

theorem Ty.beq_iff : ∀ (a b : Ty), Ty.beq a b = true ↔ a = b
  | .void, b => by cases b <;> simp [Ty.beq]
  | .bool, b => by cases b <;> simp [Ty.beq]
  | .i8, b => by cases b <;> simp [Ty.beq]
  | .i16, b => by cases b <;> simp [Ty.beq]
  | .i32, b => by cases b <;> simp [Ty.beq]
  | .i64, b => by cases b <;> simp [Ty.beq]
  | .u8, b => by cases b <;> simp [Ty.beq]
  | .u16, b => by cases b <;> simp [Ty.beq]
  | .u32, b => by cases b <;> simp [Ty.beq]
  | .u64, b => by cases b <;> simp [Ty.beq]
  | .f32, b => by cases b <;> simp [Ty.beq]
  | .f64, b => by cases b <;> simp [Ty.beq]
  | .usize, b => by cases b <;> simp [Ty.beq]
  | .isize, b => by cases b <;> simp [Ty.beq]
  | .bitInt bb ss, b => by cases b <;> simp [Ty.beq]
  | .named s, b => by cases b <;> simp [Ty.beq]
  | .err, b => by cases b <;> simp [Ty.beq]
  | .ptr t, b => by
    cases b <;> simp [Ty.beq]
    rename_i t2
    exact Ty.beq_iff t t2
  | .mutPtr t, b => by
    cases b <;> simp [Ty.beq]
    rename_i t2
    exact Ty.beq_iff t t2
  | .constPtr t, b => by
    cases b <;> simp [Ty.beq]
    rename_i t2
    exact Ty.beq_iff t t2
  | .array n t, b => by
    cases b <;> simp [Ty.beq]
    rename_i n2 t2
    exact fun _ => Ty.beq_iff t t2
  | .func ps r, b => by
    cases b <;> simp [Ty.beq]
    rename_i ps2 r2
    rw [Ty.beqList_iff ps ps2, Ty.beq_iff r r2]
termination_by a b => sizeOf a

theorem Ty.beqList_iff : ∀ (xs ys : List Ty), Ty.beqList xs ys = true ↔ xs = ys
  | [], ys => by cases ys <;> simp [Ty.beqList]
  | x :: xs, ys => by
    cases ys <;> simp [Ty.beqList]
    rename_i y ys2
    rw [Ty.beq_iff x y, Ty.beqList_iff xs ys2]
termination_by xs ys => sizeOf xs

end

theorem Ty.beq_self (a : Ty) : Ty.beq a a = true := (Ty.beq_iff a a).mpr rfl

/-! ## Claim theorems -/

/-- C10: a top-level const with a string-literal initializer of `n` bytes
appends exactly `n + 1` bytes to the data section (the bytes plus one NUL)
while the recorded `Data` symbol's size is `n`, excluding the terminator; the
write-syscall path appends only the `n` string bytes with no terminator
(alongside its five text instructions). -/
theorem const_string_nul_vs_write_syscall :
    (∀ (st : CGSt) (name : String) (oty : Option Ty) (bs : List Nat),
      generateConstItem st ⟨name, oty, .literal (.string bs)⟩ =
        .ok { st with
          data := st.data ++ bs ++ [0],
          symbols := st.symbols ++ [⟨name, st.data.length, bs.length, .data⟩] }) ∧
    (∀ (st : CGSt) (bs : List Nat),
      generateWriteSyscall st [.literal (.string bs)] =
        .ok { st with
          text := st.text ++ [0x48, 0xbf] ++ toLE 8 1 ++ [0x48, 0xbe] ++
            toLE 8 (0x1000000 + st.data.length) ++ [0x48, 0xba] ++
            toLE 8 bs.length ++ [0x48, 0xb8] ++ toLE 8 1 ++ [0x0f, 0x05],
          data := st.data ++ bs }) := by
  constructor
  · intro st name oty bs
    simp [generateConstItem]
  · intro st bs
    simp [generateWriteSyscall, getDataAddress, movRdiImmediate,
      movRsiImmediate, movRdxImmediate, movRaxImmediate, emitSyscall]

/-- C6 counterexample: the container header serializes to 80 bytes (the
`repr(C)` struct is 4+1+1+2 bytes followed by nine `u64`s), not 72. -/
theorem header_length_eighty_not_72 :
    ((mkHeader ⟨0, [], [], 0, [], []⟩).asBytes).length = 80 ∧
      (80 : Nat) ≠ 72 := by
  constructor
  · rfl
  · decide

/-- C6 amended: the serialized container header occupies exactly 80 bytes;
the header field `text_offset` is 80, and the text bytes begin at file offset
80 of the written container. -/
theorem header_eighty_bytes (o : AuraObject) :
    (mkHeader o).asBytes.length = 80 ∧ (mkHeader o).textOffset = 80 ∧
    ((writeAuraBinary o).drop 80).take o.text.length = o.text := by
  refine ⟨?_, rfl, ?_⟩
  · simp [AuraHeader.asBytes, mkHeader, toLE_length]
  · have hlen : (mkHeader o).asBytes.length = 80 := by
      simp [AuraHeader.asBytes, mkHeader, toLE_length]
    rw [writeAuraBinary, ← hlen]
    simp only [List.append_assoc]
    rw [List.drop_left, List.take_left]

/-- C4: the cast table is emitted as claimed for every target except
`BitInt(b < 64)`, where the generator appends `48 25` followed by **eight**
little-endian mask bytes (`mask_rax` writes the whole `u64`, an invalid
`and rax, imm32` stream) instead of the four-byte immediate of the spec; at
`b = 5` the emitted bytes are `48 25 1F 00 00 00 00 00 00 00`. -/
theorem cast_bitint_mask_eight_bytes :
    generateCastConversion (CGSt.new Option.none) (.bitInt 5 false) =
      { CGSt.new Option.none with
        text := [0x48, 0x25, 0x1f, 0, 0, 0, 0, 0, 0, 0] } ∧
    ([0x48, 0x25, 0x1f, 0, 0, 0, 0, 0, 0, 0] : List Nat) ≠
      specMaskEncoding 5 := by
  constructor
  · rfl
  · decide

/-- C3 counterexample: the type checker accepts `300i8` (the literal's value
is never range-checked; only the suffix is read), yet 300 does not lie in the
signed 8-bit range `[-128, 127]`. -/
theorem checker_accepts_out_of_range_literal :
    typecheckExpr TCtx.new (.literal (.int 300 .i8)) = .ok (.i8, TCtx.new) ∧
    ¬((-128 : Int) ≤ 300 ∧ (300 : Int) ≤ 127) := by
  constructor
  · simp [typecheckExpr, typecheckLiteral]
  · decide

/-- C3 amended: the type checker accepts every integer literal `Int(v, s)`
with a type determined by the suffix alone, regardless of whether `v` fits
that width; the range check is enforced by the code generator instead (see
the C2 theorem). -/
theorem checker_accepts_every_int_literal (ctx : TCtx) (v : Int)
    (s : IntSuffix) :
    ∃ t, typecheckLiteral (.int v s) = .ok t ∧
      typecheckExpr ctx (.literal (.int v s)) = .ok (t, ctx) := by
  cases s <;>
    exact ⟨_, rfl, by simp [typecheckExpr, typecheckLiteral]⟩

/-- C1 counterexample: for `entry main() -> i32 { return 0 }` the generator
emits `mov rax, 0` (`48 B8` + eight zero bytes) followed by `ret`, giving an
11-byte text section and a `main` symbol of size 11 — not the four claimed
bytes `48 31 C0 C3` of size 4. -/
theorem entry_main_not_four_bytes :
    generate ⟨[.function ⟨"main", [], .i32,
        [.retS (Option.some (.literal (.int 0 .none)))],
        [.entry Option.none]⟩]⟩ =
      .ok ⟨0, [0x48, 0xb8, 0, 0, 0, 0, 0, 0, 0, 0, 0xc3], [], 0, [],
        [⟨"main", 0, 11, .function⟩]⟩ ∧
    ([0x48, 0xb8, 0, 0, 0, 0, 0, 0, 0, 0, 0xc3] : List Nat) ≠
      [0x48, 0x31, 0xc0, 0xc3] := by
  constructor
  · simp [generate, scanEntryName, functionExists, generateItems, generateItem,
      generateFunction, setEntryIfMatch, generateStmts, generateStmt,
      generateReturn, movRaxImmediate, emitRet, CGSt.new, i64ToU64, toLE]
  · decide

/-- C1 amended: for the single function `entry main() -> i32 { return 0 }`,
generate produces an object whose text is the eleven bytes
`48 B8 00 00 00 00 00 00 00 00 C3` (`mov rax, 0; ret`), whose entry_point is
0, and whose symbol table holds exactly one Function symbol named `main` with
size 11. -/
theorem entry_main_generates_mov_ret :
    generate ⟨[.function ⟨"main", [], .i32,
        [.retS (Option.some (.literal (.int 0 .none)))],
        [.entry Option.none]⟩]⟩ =
      .ok ⟨0, [0x48, 0xb8, 0, 0, 0, 0, 0, 0, 0, 0, 0xc3], [], 0, [],
        [⟨"main", 0, 11, .function⟩]⟩ := by
  simp [generate, scanEntryName, functionExists, generateItems, generateItem,
    generateFunction, setEntryIfMatch, generateStmts, generateStmt,
    generateReturn, movRaxImmediate, emitRet, CGSt.new, i64ToU64, toLE]

/-- `v as u64` is `v.toNat` for in-range non-negative `v`. -/
theorem i64ToU64_eq_toNat {v : Int} (h0 : 0 ≤ v) (h1 : v < 2 ^ 63) :
    i64ToU64 v = v.toNat := by
  unfold i64ToU64
  rw [Int.emod_eq_of_lt h0 (by omega)]

/-- `IntType::fits` agrees with the claim's ranges (for `i64`-range values):
accept everything at `b ≥ 64`, else the signed range `[-2^(b-1), 2^(b-1)-1]`
or the unsigned range `[0, 2^b-1]`. -/
theorem fits_iff_claim {b : Nat} {sg : Bool} {v : Int}
    (hv : -(2 ^ 63) ≤ v ∧ v < 2 ^ 63) :
    (IntType.fits ⟨b, sg⟩ v = true ↔
      (64 ≤ b ∨
        (sg = true ∧ -(2 ^ (b - 1) : Int) ≤ v ∧ v ≤ 2 ^ (b - 1) - 1) ∨
        (sg = false ∧ 0 ≤ v ∧ v ≤ 2 ^ b - 1))) := by
  have h1 : (1 : Nat) ≤ 2 ^ b := Nat.one_le_two_pow
  have hcast : ((2 ^ b - 1 : Nat) : Int) = 2 ^ b - 1 := by
    push_cast [h1]
    ring
  by_cases h64 : 64 ≤ b
  · simp [IntType.fits, h64]
  · cases sg
    · simp [IntType.fits, h64]
      intro h0
      rw [i64ToU64_eq_toNat h0 hv.2, ← hcast]
      exact Int.toNat_le
    · simp [IntType.fits, h64]

/-- The suffix table only produces the widths 8, 16, 32, 64. -/
theorem fromSuffix_bits {s : IntSuffix} {b : Nat} {sg : Bool}
    (hs : IntType.fromSuffix s = Option.some ⟨b, sg⟩) :
    b = 8 ∨ b = 16 ∨ b = 32 ∨ b = 64 := by
  cases s <;> simp only [IntType.fromSuffix, Option.some.injEq,
    IntType.mk.injEq, reduceCtorEq] at hs <;> omega

/-- C2: for a suffixed integer literal, the generator errors exactly when the
value is outside the suffix's range (signed `[-2^(b-1), 2^(b-1)-1]`, unsigned
`[0, 2^b-1]`, everything accepted at `b ≥ 64`), and otherwise appends exactly
the width-selected immediate move of the masked value `v & (2^b - 1)`
(`mov al` / `66 B8` / `B8` / `48 B8` per the spec table). -/
theorem int_literal_range_and_encoding (st : CGSt) (v : Int) (s : IntSuffix)
    (b : Nat) (sg : Bool)
    (hs : IntType.fromSuffix s = Option.some ⟨b, sg⟩)
    (hv : -(2 ^ 63) ≤ v ∧ v < 2 ^ 63) :
    ((∃ e, generateExpr st (.literal (.int v s)) = .error e) ↔
      ¬(64 ≤ b ∨
        (sg = true ∧ -(2 ^ (b - 1) : Int) ≤ v ∧ v ≤ 2 ^ (b - 1) - 1) ∨
        (sg = false ∧ 0 ≤ v ∧ v ≤ 2 ^ b - 1))) ∧
    ((64 ≤ b ∨
        (sg = true ∧ -(2 ^ (b - 1) : Int) ≤ v ∧ v ≤ 2 ^ (b - 1) - 1) ∨
        (sg = false ∧ 0 ≤ v ∧ v ≤ 2 ^ b - 1)) →
      generateExpr st (.literal (.int v s)) =
        .ok ({ st with
          text := st.text ++ specImmEncoding b (i64ToU64 v &&& (2 ^ b - 1)) },
          i64ToU64 v &&& (2 ^ b - 1))) := by
  have hmask : IntType.mask ⟨b, sg⟩ = 2 ^ b - 1 := by
    rcases fromSuffix_bits hs with rfl | rfl | rfl | rfl <;>
      simp [IntType.mask]
  constructor
  · by_cases hf : IntType.fits ⟨b, sg⟩ v = true
    · simp [generateExpr, hs, hf, (fits_iff_claim hv).mp hf]
    · have hA := (not_iff_not.mpr (fits_iff_claim hv)).mp hf
      simp [generateExpr, hs, hf, hA]
  · intro hA
    have hf := (fits_iff_claim hv).mpr hA
    simp [generateExpr, hs, hf, hmask, emitWidthImmediate, specImmEncoding,
      widthImmBytes]

/-- C2 witness: `300i32` is in range and emits `B8 2C 01 00 00`. -/
theorem int_literal_range_witness :
    generateExpr (CGSt.new Option.none) (.literal (.int 300 .i32)) =
      .ok ({ CGSt.new Option.none with
        text := (CGSt.new Option.none).text ++
          specImmEncoding 32 (i64ToU64 300 &&& (2 ^ 32 - 1)) },
        i64ToU64 300 &&& (2 ^ 32 - 1)) :=
  (int_literal_range_and_encoding (CGSt.new Option.none) 300 .i32 32 true rfl
    (by decide)).2 (by decide)

/-- C9 counterexample: an expression of type `Ptr<i32>` (the third pointer
variant) is **rejected** by dereferencing — both `Deref(e)` and
`Unary(*, e)` fail with "Cannot dereference non-pointer type" — although the
claim says every pointer variant dereferences to its pointee. -/
theorem deref_raw_ptr_rejected :
    typecheckExpr TCtx.new (.cast (.literal (.int 0 .none)) (.ptr .i32)) =
      .ok (.ptr .i32, TCtx.new) ∧
    typecheckExpr TCtx.new
      (.deref (.cast (.literal (.int 0 .none)) (.ptr .i32))) =
      .error (.derefNonPointer (.ptr .i32)) ∧
    typecheckExpr TCtx.new
      (.unary .deref (.cast (.literal (.int 0 .none)) (.ptr .i32))) =
      .error (.derefNonPointer (.ptr .i32)) := by
  refine ⟨?_, ?_, ?_⟩ <;>
    simp [typecheckExpr, typecheckLiteral, Except.bind, bind]

/-- C9 amended: `Deref(e)` and `Unary(*, e)` type-check with the pointee type
exactly for the `MutPtr` and `ConstPtr` variants; the raw `Ptr` variant is
rejected as a non-pointer by both dereference forms. -/
theorem deref_mut_const_ptr_only :
    (∀ (ctx c1 : TCtx) (e : Expr) (t : Ty),
      typecheckExpr ctx e = .ok (.mutPtr t, c1) →
        typecheckExpr ctx (.deref e) = .ok (t, c1) ∧
        typecheckExpr ctx (.unary .deref e) = .ok (t, c1)) ∧
    (∀ (ctx c1 : TCtx) (e : Expr) (t : Ty),
      typecheckExpr ctx e = .ok (.constPtr t, c1) →
        typecheckExpr ctx (.deref e) = .ok (t, c1) ∧
        typecheckExpr ctx (.unary .deref e) = .ok (t, c1)) ∧
    (∀ (ctx c1 : TCtx) (e : Expr) (t : Ty),
      typecheckExpr ctx e = .ok (.ptr t, c1) →
        typecheckExpr ctx (.deref e) =
          .error (.derefNonPointer (.ptr t)) ∧
        typecheckExpr ctx (.unary .deref e) =
          .error (.derefNonPointer (.ptr t))) := by
  refine ⟨?_, ?_, ?_⟩ <;> intro ctx c1 e t h <;> constructor <;>
    simp [typecheckExpr, h, Except.bind, bind]

/-- C9 witness: a `MutPtr<i32>`-typed cast dereferences to `i32`. -/
theorem deref_mut_ptr_witness :
    typecheckExpr TCtx.new
      (.deref (.cast (.literal (.int 0 .none)) (.mutPtr .i32))) =
      .ok (.i32, TCtx.new) ∧
    typecheckExpr TCtx.new
      (.unary .deref (.cast (.literal (.int 0 .none)) (.mutPtr .i32))) =
      .ok (.i32, TCtx.new) :=
  deref_mut_const_ptr_only.1 TCtx.new TCtx.new
    (.cast (.literal (.int 0 .none)) (.mutPtr .i32)) .i32
    (by simp [typecheckExpr, typecheckLiteral, Except.bind, bind])

/-- C7: an assignment whose lhs is an identifier type-checks with result
`void` exactly when the binding's `is_const` flag (consulted after checking
both sides) is `true` and the lhs and rhs types are exactly equal; a binding
with `is_const = false` — the flag `Let` hands out — is rejected as
immutable; any lhs other than identifier / field / pointer-field / index /
dereference is an invalid assignment target. -/
theorem assign_requires_const_flag_and_equal_types :
    (∀ (ctx c2 : TCtx) (name : String) (rhs : Expr) (t : Ty) (b : Bool)
        (rt t2 : Ty) (b2 : Bool),
      ctx.lookupVariable name = Option.some (t, b) →
      typecheckExpr ctx rhs = .ok (rt, c2) →
      c2.lookupVariable name = Option.some (t2, b2) →
      (typecheckExpr ctx (.assign (.identifier name) rhs) =
          .ok (.void, c2) ↔ (b2 = true ∧ t = rt))) ∧
    (∀ (ctx c2 : TCtx) (name : String) (rhs : Expr) (t : Ty) (b : Bool)
        (rt t2 : Ty),
      ctx.lookupVariable name = Option.some (t, b) →
      typecheckExpr ctx rhs = .ok (rt, c2) →
      c2.lookupVariable name = Option.some (t2, false) →
      typecheckExpr ctx (.assign (.identifier name) rhs) =
        .error (.assignToImmutable name)) ∧
    (∀ (ctx c1 c2 : TCtx) (l rhs : Expr) (lt rt : Ty),
      isAssignTargetForm l = false →
      typecheckExpr ctx l = .ok (lt, c1) →
      typecheckExpr c1 rhs = .ok (rt, c2) →
      typecheckExpr ctx (.assign l rhs) = .error .invalidAssignTarget) ∧
    (∀ (ctx cv : TCtx) (name : String) (oty : Option Ty) (value : Expr)
        (ic : Bool) (vt : Ty),
      typecheckExpr ctx value = .ok (vt, cv) →
      (oty = Option.none ∨ oty = Option.some vt) →
      typecheckStmt ctx (.letS name oty value ic) =
        .ok (cv.addVariable name vt false)) := by
  refine ⟨?_, ?_, ?_, ?_⟩
  · intro ctx c2 name rhs t b rt t2 b2 h1 h2 h3
    simp only [typecheckExpr, h1, h2, h3, Except.bind, bind]
    cases b2 with
    | false => simp
    | true =>
      cases hbeq : Ty.beq t rt with
      | true => simp [hbeq, (Ty.beq_iff t rt).mp hbeq]
      | false =>
        have hne : t ≠ rt := by
          intro he
          rw [he, Ty.beq_self] at hbeq
          exact Bool.noConfusion hbeq
        simp [hbeq, hne]
  · intro ctx c2 name rhs t b rt t2 h1 h2 h3
    simp only [typecheckExpr, h1, h2, h3, Except.bind, bind]
    simp
  · intro ctx c1 c2 l rhs lt rt hform h1 h2
    simp only [typecheckExpr, h1, h2, Except.bind, bind]
    cases l <;> simp_all [isAssignTargetForm]
  · intro ctx cv name oty value ic vt h1 h2
    rcases h2 with h2 | h2 <;> subst h2 <;>
      simp [typecheckStmt, h1, Except.bind, bind, Ty.beq_self]

/-- C7 witness: assigning to a `is_const = true` binding of equal type
type-checks with result `void`. -/
theorem assign_const_flag_witness :
    typecheckExpr ⟨[[("x", (.i32, true))]], [], [], [], Option.none⟩
      (.assign (.identifier "x") (.literal (.int 1 .none))) =
      .ok (.void, ⟨[[("x", (.i32, true))]], [], [], [], Option.none⟩) :=
  (assign_requires_const_flag_and_equal_types.1
    ⟨[[("x", (.i32, true))]], [], [], [], Option.none⟩
    ⟨[[("x", (.i32, true))]], [], [], [], Option.none⟩ "x"
    (.literal (.int 1 .none)) .i32 true .i32 .i32 true rfl
    (by simp [typecheckExpr, typecheckLiteral]) rfl).mpr ⟨rfl, rfl⟩

/-- `find_idx?` over a list whose only match is a final singleton. -/
theorem findIdx?_append_last {α : Type} (p : α → Bool) :
    ∀ (xs : List α) (y : α), (∀ x ∈ xs, p x = false) → p y = true →
      List.findIdx? p (xs ++ [y]) = Option.some xs.length
  | [], y, _, hy => by simp [List.findIdx?, hy]
  | x :: xs, y, hxs, hy => by
    have hx : p x = false := hxs x (by simp)
    have ih := findIdx?_append_last p xs y (fun a ha => hxs a (by simp [ha]))
      hy
    simp [List.findIdx?_cons, hx, ih]

/-- `getElem?` at the index of a final singleton. -/
theorem getElem?_append_last {α : Type} :
    ∀ (xs : List α) (y : α), (xs ++ [y])[xs.length]? = Option.some y
  | [], y => rfl
  | x :: xs, y => by
    simpa using getElem?_append_last xs y

/-- `set` at the index of a final singleton. -/
theorem set_append_last {α : Type} :
    ∀ (xs : List α) (y a : α), (xs ++ [y]).set xs.length a = xs ++ [a]
  | [], y, a => rfl
  | x :: xs, y, a => by
    simpa using set_append_last xs y a

/-- `call_external` never pushes a symbol. -/
theorem callExternal_symbols (st : CGSt) (s : String) :
    (callExternal st s).symbols = st.symbols := by
  unfold callExternal
  split_ifs <;> rfl

/-- `generate_write_syscall` never pushes a symbol. -/
theorem generateWriteSyscall_symbols {st st' : CGSt} {args : List Expr}
    (h : generateWriteSyscall st args = .ok st') :
    st'.symbols = st.symbols := by
  unfold generateWriteSyscall at h
  dsimp only at h
  repeat' split at h
  all_goals
    simp_all [emitSyscall, movRaxImmediate, movRdxImmediate, movRsiImmediate,
      movRdiImmediate]
  all_goals rw [← h]

/-- `generate_syscall` never pushes a symbol. -/
theorem generateSyscall_symbols {st st' : CGSt} {m : String}
    {args : List Expr} (h : generateSyscall st m args = .ok st') :
    st'.symbols = st.symbols := by
  unfold generateSyscall at h
  split at h
  · exact generateWriteSyscall_symbols h
  · exact absurd h (by simp)

/-- `generate_expr` never pushes a symbol. -/
theorem generateExpr_symbols :
    ∀ (e : Expr) (st st' : CGSt) (r : Nat),
      generateExpr st e = .ok (st', r) → st'.symbols = st.symbols
  | .literal l, st, st', r => by
    intro h
    cases l with
    | int val s =>
      simp only [generateExpr] at h
      split at h
      · split at h
        · simp only [Except.ok.injEq, Prod.mk.injEq] at h
          rw [← h.1]
          simp [emitWidthImmediate]
        · exact absurd h (by simp)
      · simp only [Except.ok.injEq, Prod.mk.injEq] at h
        rw [← h.1]
    | float v s =>
      simp only [generateExpr, Except.ok.injEq, Prod.mk.injEq] at h
      rw [← h.1]
    | bool b =>
      simp only [generateExpr, Except.ok.injEq, Prod.mk.injEq] at h
      rw [← h.1]
    | string bs =>
      simp only [generateExpr, Except.ok.injEq, Prod.mk.injEq] at h
      rw [← h.1]
    | char c =>
      simp only [generateExpr, Except.ok.injEq, Prod.mk.injEq] at h
      rw [← h.1]
  | .identifier name, st, st', r => by
    intro h
    simp only [generateExpr] at h
    split at h
    · simp only [Except.ok.injEq, Prod.mk.injEq] at h
      rw [← h.1]
      simp [movRaxFromMem, movRaxImmediate]
    · split at h
      · simp only [Except.ok.injEq, Prod.mk.injEq] at h
        rw [← h.1]
        simp [movRaxFromR10, movR10Immediate]
      · simp only [Except.ok.injEq, Prod.mk.injEq] at h
        rw [← h.1]
  | .syscall m args, st, st', r => by
    intro h
    simp only [generateExpr] at h
    split at h
    · rename_i s1 hsys
      simp only [Except.ok.injEq, Prod.mk.injEq] at h
      rw [← h.1]
      exact generateSyscall_symbols hsys
    · exact absurd h (by simp)
  | .alloc ty count, st, st', r => by
    intro h
    simp only [generateExpr] at h
    split at h
    · exact absurd h (by simp)
    · rename_i s1 sz hc
      simp only [Except.ok.injEq, Prod.mk.injEq] at h
      rw [← h.1]
      rw [callExternal_symbols]
      have := generateExpr_symbols count st s1 sz hc
      simpa [movRdiImmediate] using this
  | .free p sz, st, st', r => by
    intro h
    simp only [generateExpr] at h
    split at h
    · exact absurd h (by simp)
    · rename_i s1 r1 hp
      split at h
      · exact absurd h (by simp)
      · rename_i s3 sv hs3
        simp only [Except.ok.injEq, Prod.mk.injEq] at h
        rw [← h.1]
        rw [callExternal_symbols]
        have h1 := generateExpr_symbols p st s1 r1 hp
        have h3 := generateExpr_symbols sz (movRdiRax s1) s3 sv hs3
        simp [movRsiImmediate, movRdiRax] at h3 ⊢
        rw [h3, h1]
  | .cast e ty, st, st', r => by
    intro h
    simp only [generateExpr] at h
    split at h
    · exact absurd h (by simp)
    · rename_i s1 r1 he
      simp only [Except.ok.injEq, Prod.mk.injEq] at h
      rw [← h.1]
      have h1 := generateExpr_symbols e st s1 r1 he
      cases ty <;> simp [generateCastConversion, maskRax, h1] <;> split_ifs <;>
        simp [h1]
  | .unary op e, st, st', r => by
    intro h
    simp only [generateExpr, Except.ok.injEq, Prod.mk.injEq] at h
    rw [← h.1]
  | .binary op a b, st, st', r => by
    intro h
    simp only [generateExpr, Except.ok.injEq, Prod.mk.injEq] at h
    rw [← h.1]
  | .call f args, st, st', r => by
    intro h
    simp only [generateExpr, Except.ok.injEq, Prod.mk.injEq] at h
    rw [← h.1]
  | .index a i, st, st', r => by
    intro h
    simp only [generateExpr, Except.ok.injEq, Prod.mk.injEq] at h
    rw [← h.1]
  | .field e f, st, st', r => by
    intro h
    simp only [generateExpr, Except.ok.injEq, Prod.mk.injEq] at h
    rw [← h.1]
  | .ptrField e f, st, st', r => by
    intro h
    simp only [generateExpr, Except.ok.injEq, Prod.mk.injEq] at h
    rw [← h.1]
  | .sizeofE t, st, st', r => by
    intro h
    simp only [generateExpr, Except.ok.injEq, Prod.mk.injEq] at h
    rw [← h.1]
  | .alignofE t, st, st', r => by
    intro h
    simp only [generateExpr, Except.ok.injEq, Prod.mk.injEq] at h
    rw [← h.1]
  | .offsetofE t f, st, st', r => by
    intro h
    simp only [generateExpr, Except.ok.injEq, Prod.mk.injEq] at h
    rw [← h.1]
  | .assign a b, st, st', r => by
    intro h
    simp only [generateExpr, Except.ok.injEq, Prod.mk.injEq] at h
    rw [← h.1]
  | .addrOf e, st, st', r => by
    intro h
    simp only [generateExpr, Except.ok.injEq, Prod.mk.injEq] at h
    rw [← h.1]
  | .deref e, st, st', r => by
    intro h
    simp only [generateExpr, Except.ok.injEq, Prod.mk.injEq] at h
    rw [← h.1]
  | .block ss re, st, st', r => by
    intro h
    simp only [generateExpr, Except.ok.injEq, Prod.mk.injEq] at h
    rw [← h.1]
  | .ifE c t e, st, st', r => by
    intro h
    simp only [generateExpr, Except.ok.injEq, Prod.mk.injEq] at h
    rw [← h.1]
termination_by e => sizeOf e

/-- `generate_return` never pushes a symbol. -/
theorem generateReturn_symbols {st st' : CGSt} {e : Expr}
    (h : generateReturn st e = .ok st') : st'.symbols = st.symbols := by
  unfold generateReturn at h
  repeat' split at h
  all_goals simp_all [movRaxImmediate, movRaxFromMem, xorRaxRax]
  all_goals rw [← h]

/-- `generate_let` never pushes a symbol. -/
theorem generateLet_symbols {st st' : CGSt} {name : String} {value : Expr}
    (h : generateLet st name value = .ok st') : st'.symbols = st.symbols := by
  unfold generateLet at h
  dsimp only at h
  split at h
  · simp only [Except.ok.injEq] at h
    rw [← h]
  · split at h
    · simp only [Except.ok.injEq] at h
      rw [← h]
      simp [movRaxToR10Mem, movR10Immediate, movRaxFromR10]
    · exact absurd h (by simp)
  · split at h
    · exact absurd h (by simp)
    · rename_i s1 r1 hgen
      simp only [Except.ok.injEq] at h
      rw [← h]
      have hs := generateExpr_symbols _ _ _ _ hgen
      simpa [movRaxToR10Mem, movR10Immediate] using hs

mutual

/-- A symbol-free statement (`stmtSymFree`) leaves the symbol table
unchanged under `generate_stmt`. -/
theorem generateStmt_symbols :
    ∀ (s : Stmt) (st st' : CGSt), stmtSymFree s = true →
      generateStmt st s = .ok st' → st'.symbols = st.symbols
  | .retS (Option.some e), st, st', _, h => by
    simp only [generateStmt] at h
    split at h
    · rename_i s1 hr
      simp only [Except.ok.injEq] at h
      rw [← h]
      simpa [emitRet] using generateReturn_symbols hr
    · exact absurd h (by simp)
  | .retS Option.none, st, st', _, h => by
    simp only [generateStmt, Except.ok.injEq] at h
    rw [← h]
    simp [emitRet, xorRaxRax]
  | .constS n t v, st, st', hf, h => by
    simp [stmtSymFree] at hf
  | .letS n t v ic, st, st', _, h => by
    simp only [generateStmt] at h
    exact generateLet_symbols h
  | .exprS e, st, st', _, h => by
    simp only [generateStmt] at h
    split at h
    · rename_i s1 r hg
      simp only [Except.ok.injEq] at h
      rw [← h]
      exact generateExpr_symbols _ _ _ _ hg
    · exact absurd h (by simp)
  | .block ss, st, st', hf, h => by
    simp only [generateStmt] at h
    simp only [stmtSymFree] at hf
    exact generateStmts_symbols ss st st' hf h
  | .breakS, st, st', _, h => by
    simp only [generateStmt, Except.ok.injEq] at h
    rw [← h]
  | .continueS, st, st', _, h => by
    simp only [generateStmt, Except.ok.injEq] at h
    rw [← h]
  | .ifS c tb eb, st, st', _, h => by
    simp only [generateStmt, Except.ok.injEq] at h
    rw [← h]
  | .whileS c b, st, st', _, h => by
    simp only [generateStmt, Except.ok.injEq] at h
    rw [← h]
  | .forS i c u b, st, st', _, h => by
    simp only [generateStmt, Except.ok.injEq] at h
    rw [← h]
  | .asmS t i o c, st, st', _, h => by
    simp only [generateStmt, Except.ok.injEq] at h
    rw [← h]
  | .deferS s, st, st', _, h => by
    simp only [generateStmt, Except.ok.injEq] at h
    rw [← h]
termination_by s => sizeOf s

/-- `generateStmt_symbols` over a statement list. -/
theorem generateStmts_symbols :
    ∀ (ss : List Stmt) (st st' : CGSt), stmtsSymFree ss = true →
      generateStmts st ss = .ok st' → st'.symbols = st.symbols
  | [], st, st', _, h => by
    simp only [generateStmts, Except.ok.injEq] at h
    rw [← h]
  | s :: ss, st, st', hf, h => by
    simp only [stmtsSymFree, Bool.and_eq_true] at hf
    simp only [generateStmts] at h
    split at h
    · rename_i s1 h1
      rw [generateStmts_symbols ss s1 st' hf.2 h,
        generateStmt_symbols s st s1 hf.1 h1]
    · exact absurd h (by simp)
termination_by ss => sizeOf ss

end

/-- `setEntryIfMatch` changes neither symbols nor text. -/
theorem setEntryIfMatch_same (st : CGSt) (n : String) (k : Nat) :
    (setEntryIfMatch st n k).symbols = st.symbols ∧
      (setEntryIfMatch st n k).text = st.text := by
  unfold setEntryIfMatch
  split
  · split <;> exact ⟨rfl, rfl⟩
  · exact ⟨rfl, rfl⟩

/-- C8 counterexample: a top-level `var` contributes **no** symbol —
`generate_var_item` only adds 8 to `bss_size` — so a program with one var
yields an empty symbol table, not one symbol per item. -/
theorem var_item_contributes_no_symbol :
    generate ⟨[.varI ⟨"g", Option.none, .literal (.int 1 .none)⟩]⟩ =
      .ok ⟨0, [], [], 8, [], []⟩ ∧
    ([] : List Symbol).length ≠ 1 := by
  constructor
  · simp [generate, scanEntryName, generateItems, generateItem,
      generateVarItem, CGSt.new]
  · decide

/-- C8 amended: per top-level item, the generator contributes: for a `var`,
no symbol, no data, and 8 bytes of bss; for a `const` with an integer
literal, one size-8 `Data` symbol and 8 little-endian data bytes; for a
`const` with a string literal of `n` bytes, one size-`n` `Data` symbol and
`n + 1` data bytes; for a `const` with any other initializer, nothing; and
for a function whose name is fresh and whose body contains no `Const`
statement, exactly one `Function` symbol at its text offset whose size is
patched to the body's emitted length. -/
theorem item_symbol_contributions :
    (∀ (st : CGSt) (v : VarDecl),
      generateVarItem st v = .ok { st with bssSize := st.bssSize + 8 }) ∧
    (∀ (st : CGSt) (name : String) (oty : Option Ty) (val : Int)
        (sfx : IntSuffix),
      generateConstItem st ⟨name, oty, .literal (.int val sfx)⟩ =
        .ok { st with
          data := st.data ++ toLE 8 (i64ToU64 val),
          symbols := st.symbols ++ [⟨name, st.data.length, 8, .data⟩] }) ∧
    (∀ (st : CGSt) (name : String) (oty : Option Ty) (bs : List Nat),
      generateConstItem st ⟨name, oty, .literal (.string bs)⟩ =
        .ok { st with
          data := st.data ++ bs ++ [0],
          symbols := st.symbols ++
            [⟨name, st.data.length, bs.length, .data⟩] }) ∧
    (∀ (st : CGSt) (c : ConstDecl),
      constHasDataInit c.value = false → generateConstItem st c = .ok st) ∧
    (∀ (st : CGSt) (f : FunctionD) (st' : CGSt),
      (∀ sym ∈ st.symbols, sym.name ≠ f.name) →
      stmtsSymFree f.body = true →
      generateFunction st f = .ok st' →
      st'.symbols = st.symbols ++
        [⟨f.name, st.text.length, st'.text.length - st.text.length,
          .function⟩]) := by
  refine ⟨fun st v => rfl, fun st name oty val sfx => rfl,
    fun st name oty bs => rfl, ?_, ?_⟩
  · intro st c hc
    unfold generateConstItem
    split
    · rename_i val sfx heq
      rw [heq] at hc
      simp [constHasDataInit] at hc
    · rename_i bs heq
      rw [heq] at hc
      simp [constHasDataInit] at hc
    · rfl
  · intro st f st' hname hfree h
    simp only [generateFunction] at h
    split at h
    · exact absurd h (by simp)
    · rename_i s3 hgen
      have hsame := setEntryIfMatch_same
        { st with symbols :=
            st.symbols ++ [(⟨f.name, st.text.length, 0, .function⟩ : Symbol)] }
        f.name st.text.length
      have hsym3 : s3.symbols =
          st.symbols ++ [(⟨f.name, st.text.length, 0, .function⟩ : Symbol)] := by
        rw [generateStmts_symbols f.body _ s3 hfree hgen, hsame.1]
      have hb : ∀ x ∈ st.symbols, (x.name == f.name) = false := fun x hx =>
        beq_eq_false_iff_ne.mpr (hname x hx)
      have hidx : s3.symbols.findIdx? (fun s => s.name == f.name) =
          Option.some st.symbols.length := by
        rw [hsym3]
        exact findIdx?_append_last _ st.symbols _ hb (by simp)
      rw [hidx] at h
      dsimp only at h
      have hget : s3.symbols[st.symbols.length]? =
          Option.some (⟨f.name, st.text.length, 0, .function⟩ : Symbol) := by
        rw [hsym3]
        exact getElem?_append_last st.symbols _
      rw [hget] at h
      dsimp only at h
      simp only [Except.ok.injEq] at h
      rw [← h]
      simp only [hsym3, set_append_last]

/-- C8 witness: a fresh function with an empty body contributes exactly one
`Function` symbol. -/
theorem function_symbol_witness :
    (⟨[], [], 0, [], [⟨"f0", 0, 0, .function⟩], 0, Option.none, []⟩ :
        CGSt).symbols =
      (CGSt.new Option.none).symbols ++
        [⟨"f0", (CGSt.new Option.none).text.length,
          (⟨[], [], 0, [], [⟨"f0", 0, 0, .function⟩], 0, Option.none, []⟩ :
              CGSt).text.length - (CGSt.new Option.none).text.length,
          .function⟩] :=
  item_symbol_contributions.2.2.2.2 (CGSt.new Option.none)
    ⟨"f0", [], .void, [], []⟩
    ⟨[], [], 0, [], [⟨"f0", 0, 0, .function⟩], 0, Option.none, []⟩
    (by simp [CGSt.new]) (by simp [stmtsSymFree])
    (by simp [generateFunction, setEntryIfMatch, generateStmts, CGSt.new])

/-- Dropping past a prefix of known length. -/
theorem drop_len_add {α : Type} :
    ∀ (a l : List α) (n : Nat), (a ++ l).drop (a.length + n) = l.drop n
  | [], l, n => by simp
  | x :: xs, l, n => by
    rw [List.cons_append, List.length_cons,
      show xs.length + 1 + n = (xs.length + n) + 1 by ring,
      List.drop_succ_cons, drop_len_add xs l n]

/-- Skip the 8 literal bytes `AURA`, version 1, flags 0, reserved 0. -/
theorem readLE_hdr_skip (rest : List Nat) (n k : Nat) :
    readLE (([0x41, 0x55, 0x52, 0x41, 1, 0, 0, 0] : List Nat) ++ rest)
      (8 + n) k = readLE rest n k := by
  unfold readLE
  have h := drop_len_add
    ([0x41, 0x55, 0x52, 0x41, 1, 0, 0, 0] : List Nat) rest n
  simp only [List.length_cons, List.length_nil] at h
  rw [h]

/-- Skip one 8-byte little-endian block. -/
theorem readLE_toLE8_skip (x : Nat) (rest : List Nat) (n k : Nat) :
    readLE (toLE 8 x ++ rest) (8 + n) k = readLE rest n k := by
  unfold readLE
  have h := drop_len_add (toLE 8 x) rest n
  rw [toLE_length] at h
  rw [h]

/-- Read the 8-byte block at the head. -/
theorem readLE8_at_block (x : Nat) (rest : List Nat) (hx : x < 2 ^ 64) :
    readLE (toLE 8 x ++ rest) 0 8 = x := by
  unfold readLE
  rw [List.drop_zero, List.take_left' (toLE_length 8 x)]
  exact fromLE_toLE_of_lt (lt_of_lt_of_le hx (by norm_num))

/-- `align_to` to 16 only rounds up. -/
theorem alignTo_ge16 (s : Nat) : s ≤ alignTo s 16 := by
  unfold alignTo
  have h1 := Nat.div_add_mod (s + 16 - 1) 16
  have h2 := Nat.mod_lt (s + 16 - 1) (show 0 < 16 by norm_num)
  simp only [show (16 : Nat) ≠ 0 from by norm_num, if_neg, if_false]
  omega

/-- `align_to` to 16 adds at most 15. -/
theorem alignTo_le16 (s : Nat) : alignTo s 16 ≤ s + 15 := by
  unfold alignTo
  have h1 := Nat.div_mul_le_self (s + 16 - 1) 16
  simp only [show (16 : Nat) ≠ 0 from by norm_num, if_neg, if_false]
  omega

/-- The serialized header splits into the 8 literal lead bytes followed by
the nine little-endian `u64` fields. -/
theorem mkHeader_asBytes_split (o : AuraObject) :
    (mkHeader o).asBytes =
      ([0x41, 0x55, 0x52, 0x41, 1, 0, 0, 0] : List Nat) ++
        (toLE 8 o.entryPoint ++ (toLE 8 4096 ++ (toLE 8 80 ++
          (toLE 8 o.text.length ++ (toLE 8 (80 + alignTo o.text.length 16) ++
            (toLE 8 o.data.length ++ (toLE 8 o.bssSize ++
              (toLE 8 o.relocations.length ++
                toLE 8 o.symbols.length)))))))) := by
  simp only [AuraHeader.asBytes, mkHeader, headerStructSize,
    List.append_assoc]
  rw [show toLE 2 0 = [0, 0] from rfl]
  simp only [List.cons_append, List.nil_append]

/-- Reading 8 bytes past the literal prefix. -/
theorem readLE_hdr_at8 (rest : List Nat) (k : Nat) :
    readLE (([0x41, 0x55, 0x52, 0x41, 1, 0, 0, 0] : List Nat) ++ rest) 8 k =
      readLE rest 0 k :=
  readLE_hdr_skip rest 0 k

/-- Reading 8 bytes past one little-endian block. -/
theorem readLE_toLE8_at8 (x : Nat) (rest : List Nat) (k : Nat) :
    readLE (toLE 8 x ++ rest) 8 k = readLE rest 0 k :=
  readLE_toLE8_skip x rest 0 k

/-- Reading the final 8-byte block. -/
theorem readLE8_last (x : Nat) (hx : x < 2 ^ 64) :
    readLE (toLE 8 x) 0 8 = x := by
  have h := readLE8_at_block x [] hx
  simpa using h

/-- C5: serializing the container header and parsing it back recovers all
thirteen fields, and the layout satisfies
`text_offset + align16(text_size) = data_offset` and
`data_offset + align16(data_size)` = the byte offset where the relocation
records begin in the written container. -/
theorem header_roundtrip_and_offsets (o : AuraObject)
    (he : o.entryPoint < 2 ^ 64) (hb : o.bssSize < 2 ^ 64)
    (hre : o.relocations.length < 2 ^ 64) (hsy : o.symbols.length < 2 ^ 64)
    (ht : o.text.length ≤ 2 ^ 32) (hd : o.data.length ≤ 2 ^ 32) :
    AuraHeader.fromBytes ((mkHeader o).asBytes) = mkHeader o ∧
    (mkHeader o).dataOffset =
      (mkHeader o).textOffset + alignTo (mkHeader o).textSize 16 ∧
    (writeAuraBinary o).drop
        ((mkHeader o).dataOffset + alignTo (mkHeader o).dataSize 16) =
      (o.relocations.map Relocation.asBytes).flatten ++
        (o.symbols.map Symbol.asBytes).flatten := by
  have hc64 : (2 : Nat) ^ 64 ≤ 256 ^ 8 := by norm_num
  have hlink : (2 : Nat) ^ 32 + 100 < 2 ^ 64 := by norm_num
  have htl : o.text.length < 2 ^ 64 := by omega
  have hdl : o.data.length < 2 ^ 64 := by omega
  have hdo : 80 + alignTo o.text.length 16 < 2 ^ 64 := by
    have := alignTo_le16 o.text.length
    omega
  refine ⟨?_, rfl, ?_⟩
  · have fm : ((mkHeader o).asBytes).take 4 = [0x41, 0x55, 0x52, 0x41] := by
      rw [mkHeader_asBytes_split o]
      rfl
    have fv : readLE ((mkHeader o).asBytes) 4 1 = 1 := by
      rw [mkHeader_asBytes_split o]
      rfl
    have ff : readLE ((mkHeader o).asBytes) 5 1 = 0 := by
      rw [mkHeader_asBytes_split o]
      rfl
    have fr : readLE ((mkHeader o).asBytes) 6 2 = 0 := by
      rw [mkHeader_asBytes_split o]
      rfl
    have f8 : readLE ((mkHeader o).asBytes) 8 8 = o.entryPoint := by
      rw [mkHeader_asBytes_split o, readLE_hdr_at8]
      exact readLE8_at_block _ _ he
    have f16 : readLE ((mkHeader o).asBytes) 16 8 = 4096 := by
      rw [show (16 : Nat) = 8 + 8 from rfl]
      rw [mkHeader_asBytes_split o, readLE_hdr_skip, readLE_toLE8_at8]
      exact readLE8_at_block _ _ (by norm_num)
    have f24 : readLE ((mkHeader o).asBytes) 24 8 = 80 := by
      rw [show (24 : Nat) = 8 + (8 + 8) from rfl]
      rw [mkHeader_asBytes_split o, readLE_hdr_skip, readLE_toLE8_skip,
        readLE_toLE8_at8]
      exact readLE8_at_block _ _ (by norm_num)
    have f32 : readLE ((mkHeader o).asBytes) 32 8 = o.text.length := by
      rw [show (32 : Nat) = 8 + (8 + (8 + 8)) from rfl]
      rw [mkHeader_asBytes_split o, readLE_hdr_skip, readLE_toLE8_skip,
        readLE_toLE8_skip, readLE_toLE8_at8]
      exact readLE8_at_block _ _ htl
    have f40 : readLE ((mkHeader o).asBytes) 40 8 =
        80 + alignTo o.text.length 16 := by
      rw [show (40 : Nat) = 8 + (8 + (8 + (8 + 8))) from rfl]
      rw [mkHeader_asBytes_split o, readLE_hdr_skip, readLE_toLE8_skip,
        readLE_toLE8_skip, readLE_toLE8_skip, readLE_toLE8_at8]
      exact readLE8_at_block _ _ hdo
    have f48 : readLE ((mkHeader o).asBytes) 48 8 = o.data.length := by
      rw [show (48 : Nat) = 8 + (8 + (8 + (8 + (8 + 8)))) from rfl]
      rw [mkHeader_asBytes_split o, readLE_hdr_skip, readLE_toLE8_skip,
        readLE_toLE8_skip, readLE_toLE8_skip, readLE_toLE8_skip,
        readLE_toLE8_at8]
      exact readLE8_at_block _ _ hdl
    have f56 : readLE ((mkHeader o).asBytes) 56 8 = o.bssSize := by
      rw [show (56 : Nat) = 8 + (8 + (8 + (8 + (8 + (8 + 8))))) from rfl]
      rw [mkHeader_asBytes_split o, readLE_hdr_skip, readLE_toLE8_skip,
        readLE_toLE8_skip, readLE_toLE8_skip, readLE_toLE8_skip,
        readLE_toLE8_skip, readLE_toLE8_at8]
      exact readLE8_at_block _ _ hb
    have f64 : readLE ((mkHeader o).asBytes) 64 8 =
        o.relocations.length := by
      rw [show (64 : Nat) = 8 + (8 + (8 + (8 + (8 + (8 + (8 + 8)))))) from
        rfl]
      rw [mkHeader_asBytes_split o, readLE_hdr_skip, readLE_toLE8_skip,
        readLE_toLE8_skip, readLE_toLE8_skip, readLE_toLE8_skip,
        readLE_toLE8_skip, readLE_toLE8_skip, readLE_toLE8_at8]
      exact readLE8_at_block _ _ hre
    have f72 : readLE ((mkHeader o).asBytes) 72 8 = o.symbols.length := by
      rw [show (72 : Nat) =
        8 + (8 + (8 + (8 + (8 + (8 + (8 + (8 + 8))))))) from rfl]
      rw [mkHeader_asBytes_split o, readLE_hdr_skip, readLE_toLE8_skip,
        readLE_toLE8_skip, readLE_toLE8_skip, readLE_toLE8_skip,
        readLE_toLE8_skip, readLE_toLE8_skip, readLE_toLE8_skip,
        readLE_toLE8_at8]
      exact readLE8_last _ hsy
    simp only [AuraHeader.fromBytes]
    rw [fm, fv, ff, fr, f8, f16, f24, f32, f40, f48, f56, f64, f72]
    rfl
  · have hh : (mkHeader o).asBytes.length = 80 := by
      simp [AuraHeader.asBytes, mkHeader, toLE_length]
    have hT : (o.text ++
          List.replicate (alignTo o.text.length 16 - o.text.length) 0).length =
        alignTo o.text.length 16 := by
      have := alignTo_ge16 o.text.length
      simp only [List.length_append, List.length_replicate]
      omega
    have hD : (o.data ++
          List.replicate (alignTo o.data.length 16 - o.data.length) 0).length =
        alignTo o.data.length 16 := by
      have := alignTo_ge16 o.data.length
      simp only [List.length_append, List.length_replicate]
      omega
    have key : writeAuraBinary o = (mkHeader o).asBytes ++
        ((o.text ++
            List.replicate (alignTo o.text.length 16 - o.text.length) 0) ++
          ((o.data ++
              List.replicate (alignTo o.data.length 16 - o.data.length) 0) ++
            ((o.relocations.map Relocation.asBytes).flatten ++
              (o.symbols.map Symbol.asBytes).flatten))) := by
      simp [writeAuraBinary, List.append_assoc]
    show (writeAuraBinary o).drop
        (80 + alignTo o.text.length 16 + alignTo o.data.length 16) = _
    rw [key]
    rw [show 80 + alignTo o.text.length 16 + alignTo o.data.length 16 =
      (mkHeader o).asBytes.length +
        (alignTo o.text.length 16 + alignTo o.data.length 16) from by omega]
    rw [drop_len_add]
    rw [show alignTo o.text.length 16 + alignTo o.data.length 16 =
      (o.text ++
          List.replicate (alignTo o.text.length 16 - o.text.length)
            0).length + alignTo o.data.length 16 from by omega]
    rw [drop_len_add]
    rw [List.drop_left' hD]

/-- C5 witness: the empty object round-trips. -/
theorem header_roundtrip_witness :
    AuraHeader.fromBytes ((mkHeader ⟨0, [], [], 0, [], []⟩).asBytes) =
      mkHeader ⟨0, [], [], 0, [], []⟩ ∧
    (mkHeader ⟨0, [], [], 0, [], []⟩).dataOffset =
      (mkHeader ⟨0, [], [], 0, [], []⟩).textOffset +
        alignTo (mkHeader ⟨0, [], [], 0, [], []⟩).textSize 16 ∧
    (writeAuraBinary ⟨0, [], [], 0, [], []⟩).drop
        ((mkHeader ⟨0, [], [], 0, [], []⟩).dataOffset +
          alignTo (mkHeader ⟨0, [], [], 0, [], []⟩).dataSize 16) =
      (([] : List Relocation).map Relocation.asBytes).flatten ++
        (([] : List Symbol).map Symbol.asBytes).flatten :=
  header_roundtrip_and_offsets ⟨0, [], [], 0, [], []⟩ (by norm_num)
    (by norm_num) (by norm_num) (by norm_num) (by norm_num) (by norm_num)

end Aura
